import Mathlib

/-!
# tinyrpc: the client codec

A shallow embedding of `codec/client.go` (type `clientCodec` with its methods
`WriteRequest`, `ReadResponseHeader` and `ReadResponseBody`) together with the
parts of its surroundings that the methods touch: the buffered writer and the
connection below it, the frame helpers, the CRC-32 checksum, the compressor
registry and the serializer.

Conventions.
* A byte is a `Nat` below 256, a byte slice is a `List Nat`.
* Go's unsigned machine integers are `Nat`; a conversion that can truncate is
  written with an explicit `% 2 ^ w`.
* A Go method with a pointer receiver becomes a function that returns the new
  value of the receiver next to the method's results.
* A Go `error` result is a `Ret`: `Ret.nil`, `Ret.err e`, or `Ret.panic` when
  the call does not return at all because the runtime panics.
-/

namespace codec

/-- A byte slice. -/
abbrev Bytes := List Nat

/-- The error values that can reach a caller of the codec.  The first three are
the sentinel errors of package `codec`; `UnexpectedEOFError` is what the frame
helpers report when the stream ends early; `other code` stands for every error
value created outside the package (the connection, a serializer, a compressor,
the header decoder), identified by a code. -/
inductive Error where
  | NotFoundCompressorError
  | UnexpectedChecksumError
  | CompressorTypeMismatchError
  | UnexpectedEOFError
  | other (code : Nat)
  deriving DecidableEq, Repr

/-- What a call of a method with result type `error` does. -/
inductive Ret where
  | nil
  | err (e : Error)
  | panic
  deriving DecidableEq, Repr

/-- The calls into other packages that a method performed, in order. -/
inductive Call where
  | Marshal
  | Zip
  | ChecksumIEEE
  | GetCompressType
  | Unzip
  | Unmarshal
  deriving DecidableEq, Repr

/-! ## hash/crc32 -/

/-- The IEEE polynomial in reversed bit order (`crc32.IEEE`). -/
def IEEE : Nat := 0xedb88320

/-- One shift of the CRC register: the inner statement of the table
construction of `hash/crc32`,
`if crc&1 == 1 then crc = (crc >> 1) ^ poly else crc >>= 1`. -/
def crcShift (crc : Nat) : Nat :=
  if crc % 2 = 1 then (crc / 2) ^^^ IEEE else crc / 2

/-- The register after one more input byte `v`: the byte is xor-ed into the low
end of the register, which is then shifted eight times. -/
def crcUpdateByte (crc v : Nat) : Nat :=
  crcShift (crcShift (crcShift (crcShift (crcShift (crcShift (crcShift
    (crcShift (crc ^^^ v))))))))

/-- The register after the bytes of `p`. -/
def crcUpdate (crc : Nat) (p : Bytes) : Nat :=
  p.foldl crcUpdateByte crc

/-- The checksum `crc32.ChecksumIEEE(p)`: the register starts at `^0`, runs over
the bytes, and is complemented at the end. -/
def ChecksumIEEE (p : Bytes) : Nat :=
  crcUpdate 0xffffffff p ^^^ 0xffffffff

/-- Flip bit `i` of the byte slice `b`, counting from the low bit of the first
byte: bit `i % 8` of byte `i / 8`. -/
def flipBit (b : Bytes) (i : Nat) : Bytes :=
  b.set (i / 8) (b.getD (i / 8) 0 ^^^ 2 ^ (i % 8))

/-! ## The connection and `bufio.Writer` -/

/-- The write side of the connection under the codec.  `sent` holds the bytes
the connection has accepted so far.  The connection accepts `room` more bytes;
a `Write` that asks for more accepts what still fits and fails with
`Error.other fault`. -/
structure Conn where
  sent : Bytes
  room : Nat
  fault : Nat
  deriving DecidableEq, Repr

/-- The method `Write` of the connection: the number of bytes accepted, the
error, and the connection afterwards. -/
def Conn.Write (c : Conn) (p : Bytes) : Nat × Option Error × Conn :=
  if p.length ≤ c.room then
    (p.length, none, { c with sent := c.sent ++ p, room := c.room - p.length })
  else
    (c.room, some (Error.other c.fault),
      { c with sent := c.sent ++ p.take c.room, room := 0 })

/-- The size of the buffer that `bufio.NewWriter` allocates. -/
def defaultBufSize : Nat := 4096

/-- A `bufio.Writer`: its sticky error `err`, the buffered bytes
`buf[0:n]`, and the writer `wr` below it. -/
structure Writer where
  err : Option Error
  buf : Bytes
  wr : Conn
  deriving DecidableEq, Repr

/-- The method `Available`: how many bytes are unused in the buffer. -/
def Writer.Available (b : Writer) : Nat := defaultBufSize - b.buf.length

/-- The method `Buffered`: how many bytes are in the buffer. -/
def Writer.Buffered (b : Writer) : Nat := b.buf.length

/-- The method `Flush` of `bufio.Writer`: returns the sticky error if there is
one, else hands the buffer to the connection; after a short write the bytes not
accepted stay in the buffer and the error becomes sticky. -/
def Writer.Flush (b : Writer) : Option Error × Writer :=
  match b.err with
  | some e => (some e, b)
  | none =>
    if b.buf.length = 0 then (none, b)
    else
      match b.wr.Write b.buf with
      | (n, e, wr) =>
        let e := if n < b.buf.length ∧ e = none then some (Error.other 0) else e
        match e with
        | some e => (some e, { err := some e, buf := b.buf.drop n, wr := wr })
        | none => (none, { err := none, buf := [], wr := wr })

/-- The loop of `bufio.Writer.Write`,
`for len(p) > b.Available() && b.err == nil`, with the count `nn` of bytes
taken so far.  A round with an empty buffer writes `p` straight to the
connection; any other round fills the buffer up from `p` and flushes it.  The
first argument bounds the number of rounds. -/
def Writer.writeLoop : Nat → Writer → Bytes → Nat → Writer × Bytes × Nat
  | 0, b, p, nn => (b, p, nn)
  | fuel + 1, b, p, nn =>
    if p.length > b.Available ∧ b.err = none then
      if b.Buffered = 0 then
        match b.wr.Write p with
        | (n, e, wr) => writeLoop fuel { b with err := e, wr := wr } (p.drop n) (nn + n)
      else
        let n := min b.Available p.length
        let b1 : Writer := { b with buf := b.buf ++ p.take n }
        writeLoop fuel b1.Flush.2 (p.drop n) (nn + n)
    else (b, p, nn)

/-- The method `Write` of `bufio.Writer`: after the loop, the sticky error is
returned if there is one, else what is left of `p` is copied into the buffer.
Three rounds of the loop always reach its exit (`writeLoop_exit`). -/
def Writer.Write (b : Writer) (p : Bytes) : Nat × Option Error × Writer :=
  match Writer.writeLoop 3 b p 0 with
  | (b1, p1, nn) =>
    match b1.err with
    | some e => (nn, some e, b1)
    | none => (nn + p1.length, none, { b1 with buf := b1.buf ++ p1 })

/-! ## The frame helpers of package `codec` -/

/-- The four bytes of `n` as an unsigned 32-bit number, most significant byte
first. -/
def putUint32 (n : Nat) : Bytes :=
  [n / 2 ^ 24 % 256, n / 2 ^ 16 % 256, n / 2 ^ 8 % 256, n % 256]

/-- The number whose four big-endian bytes are `a b c d`. -/
def getUint32 (a b c d : Nat) : Nat :=
  a * 2 ^ 24 + b * 2 ^ 16 + c * 2 ^ 8 + d

/-- Modelled from the spec: the helper `write(writer, buffer)`, which is not
among the given sources, moves the whole buffer to the writer and fails with
the writer's error when it cannot. -/
def write (w : Writer) (data : Bytes) : Option Error × Writer :=
  match w.Write data with
  | (_, e, w1) => (e, w1)

/-- Modelled from the spec: the helper `sendFrame(writer, payload)`, which is
not among the given sources, writes a 4-byte unsigned big-endian length equal
to `len(payload)` and then the payload, and fails with the error of the write
that failed. -/
def sendFrame (w : Writer) (data : Bytes) : Option Error × Writer :=
  match write w (putUint32 data.length) with
  | (some e, w1) => (some e, w1)
  | (none, w1) => write w1 data

/-- The bytes `sendFrame` puts on the wire for a payload: the header frame. -/
def frame (data : Bytes) : Bytes := putUint32 data.length ++ data

/-- Modelled from the spec: the helper `read(reader, buffer)`, which is not
among the given sources, takes exactly `n` bytes (the length of the buffer)
from the reader, and fails with `UnexpectedEOFError` when the stream ends
before that.  The reader is the list of bytes not read yet. -/
def read (r : Bytes) (n : Nat) : Except Error Bytes × Bytes :=
  if n ≤ r.length then (.ok (r.take n), r.drop n)
  else (.error Error.UnexpectedEOFError, [])

/-- Modelled from the spec: the helper `recvFrame(reader)`, which is not among
the given sources, reads exactly 4 bytes for the length and then exactly that
many bytes as the payload. -/
def recvFrame (r : Bytes) : Except Error Bytes × Bytes :=
  match read r 4 with
  | (.ok [a, b, c, d], r1) => read r1 (getUint32 a b c d)
  | (.ok _, r1) => (.error Error.UnexpectedEOFError, r1)
  | (.error e, r1) => (.error e, r1)

/-! ## Packages `header`, `compressor`, `serializer` and `net/rpc` -/

/-- The type `header.RequestHeader`. -/
structure RequestHeader where
  CompressType : Nat
  Method : String
  ID : Nat
  RequestLen : Nat
  Checksum : Nat
  deriving DecidableEq, Repr

/-- The type `header.ResponseHeader`. -/
structure ResponseHeader where
  CompressType : Nat
  Error : String
  ID : Nat
  ResponseLen : Nat
  Checksum : Nat
  deriving DecidableEq, Repr

/-- The header a call takes out of `header.RequestPool`: every header is reset
before it is put back, so it has the zero value in each field. -/
def RequestPool : RequestHeader :=
  { CompressType := 0, Method := "", ID := 0, RequestLen := 0, Checksum := 0 }

/-- The method `ResetHeader` of a response header. -/
def ResponseHeader.ResetHeader (_ : ResponseHeader) : ResponseHeader :=
  { CompressType := 0, Error := "", ID := 0, ResponseLen := 0, Checksum := 0 }

/-- Modelled from the spec: the accessor `GetCompressType` of package `header`,
which is not among the given sources, returns the compression code the header
declares. -/
def ResponseHeader.GetCompressType (h : ResponseHeader) : Nat := h.CompressType

/-- The interface `compressor.Compressor`.  An error of a compressor is a value
from outside package `codec`, given by its code. -/
structure Compressor where
  Zip : Bytes → Except Nat Bytes
  Unzip : Bytes → Except Nat Bytes

/-- The interface `serializer.Serializer` for values of type `α`.  `Unmarshal`
gets the bytes and the value its target holds, and returns its error, if any,
next to the value the target holds afterwards. -/
structure Serializer (α : Type) where
  Marshal : α → Except Nat Bytes
  Unmarshal : Bytes → α → Option Nat × α

/-- What the codec uses and has no source for here: the registry
`compressor.Compressors` (code to implementation, `none` for a code that is not
registered); the byte encoding of package `header` (`RequestHeader.Marshal`,
which never fails, and `ResponseHeader.Unmarshal`); and the value of the
expression `C.Response.ID` that line 101 of `client.go` assigns to `r.Seq`.
`C` is declared in none of the sources at hand and is not the receiver `c`, so
the value is taken as given, in the most general form: as a function of the
header that `Unmarshal` has just decoded into `c.response`. -/
structure Packages where
  Compressors : Nat → Option Compressor
  MarshalRequest : RequestHeader → Bytes
  UnmarshalResponse : Bytes → Except Nat ResponseHeader
  C_Response_ID : ResponseHeader → Nat

/-- The type `rpc.Request`. -/
structure Request where
  ServiceMethod : String
  Seq : Nat
  deriving DecidableEq, Repr

/-- The type `rpc.Response`. -/
structure Response where
  ServiceMethod : String
  Seq : Nat
  Error : String
  deriving DecidableEq, Repr

/-! ## The pending table `map[uint64]string` -/

/-- The map from sequence number to method name: a list of entries with at most
one entry for a key. -/
abbrev Pending := List (Nat × String)

/-- The statement `m[k] = v`. -/
def Pending.store (m : Pending) (k : Nat) (v : String) : Pending :=
  (k, v) :: m.filter (fun e => e.1 ≠ k)

/-- The expression `m[k]`: the zero value `""` for a key that has no entry. -/
def Pending.load (m : Pending) (k : Nat) : String :=
  match m.find? (fun e => e.1 = k) with
  | some e => e.2
  | none => ""

/-- The statement `delete(m, k)`. -/
def Pending.delete (m : Pending) (k : Nat) : Pending :=
  m.filter (fun e => e.1 ≠ k)

/-! ## `clientCodec` -/

/-- The type `clientCodec`.  `r` is the buffered reader over the connection,
given by the bytes not read yet; `w` is the buffered writer. -/
structure clientCodec (α : Type) where
  r : Bytes
  w : Writer
  compressor : Nat
  serializer : Serializer α
  response : ResponseHeader
  pending : Pending

/-- The function `NewClientCodec` on a connection with incoming bytes `inp` and
write side `conn`. -/
def NewClientCodec {α : Type} (inp : Bytes) (conn : Conn) (compressType : Nat)
    (serializer : Serializer α) : clientCodec α :=
  { r := inp
    w := { err := none, buf := [], wr := conn }
    compressor := compressType
    serializer := serializer
    response := { CompressType := 0, Error := "", ID := 0, ResponseLen := 0, Checksum := 0 }
    pending := [] }

/-- What a call of `WriteRequest` leaves behind: its result, the codec, and the
calls into other packages it made. -/
structure WriteResult (α : Type) where
  ret : Ret
  codec : clientCodec α
  calls : List Call

/-- The header `WriteRequest` fills in for request `r` and compressed body
`compressedReqBody` (lines 64 to 74). -/
def requestHeader (compressor : Nat) (r : Request) (compressedReqBody : Bytes) :
    RequestHeader :=
  { RequestPool with
    ID := r.Seq
    Method := r.ServiceMethod
    RequestLen := compressedReqBody.length % 2 ^ 32
    CompressType := compressor
    Checksum := ChecksumIEEE compressedReqBody }

/-- The method `WriteRequest`. -/
def WriteRequest {α : Type} (env : Packages) (c : clientCodec α) (r : Request)
    (param : α) : WriteResult α :=
  let c : clientCodec α := { c with pending := c.pending.store r.Seq r.ServiceMethod }
  match env.Compressors c.compressor with
  | none => ⟨Ret.err Error.NotFoundCompressorError, c, []⟩
  | some _ =>
    match c.serializer.Marshal param with
    | .error e => ⟨Ret.err (Error.other e), c, [Call.Marshal]⟩
    | .ok reqBody =>
      match env.Compressors c.compressor with
      | none => ⟨Ret.panic, c, [Call.Marshal]⟩
      | some z =>
        match z.Zip reqBody with
        | .error e => ⟨Ret.err (Error.other e), c, [Call.Marshal, Call.Zip]⟩
        | .ok compressedReqBody =>
          let h := requestHeader c.compressor r compressedReqBody
          let calls := [Call.Marshal, Call.Zip, Call.ChecksumIEEE]
          match sendFrame c.w (env.MarshalRequest h) with
          | (some e, w1) => ⟨Ret.err e, { c with w := w1 }, calls⟩
          | (none, w1) =>
            match write w1 compressedReqBody with
            | (some e, w2) => ⟨Ret.err e, { c with w := w2 }, calls⟩
            | (none, w2) => ⟨Ret.nil, { c with w := w2.Flush.2 }, calls⟩

/-- What a call of `ReadResponseHeader` leaves behind: its result, the codec,
and the `rpc.Response` it was given. -/
structure HeaderResult (α : Type) where
  ret : Ret
  codec : clientCodec α
  r : Response

/-- The method `ReadResponseHeader`.  Line 101 of the source is
`r.Seq = C.Response.ID`; the two lines after it use `r.Seq` as the key into the
pending table. -/
def ReadResponseHeader {α : Type} (env : Packages) (c : clientCodec α)
    (r : Response) : HeaderResult α :=
  let c : clientCodec α := { c with response := c.response.ResetHeader }
  match recvFrame c.r with
  | (.error e, r1) => ⟨Ret.err e, { c with r := r1 }, r⟩
  | (.ok data, r1) =>
    match env.UnmarshalResponse data with
    | .error e => ⟨Ret.err (Error.other e), { c with r := r1 }, r⟩
    | .ok h =>
      let c : clientCodec α := { c with r := r1, response := h }
      let r : Response := { r with Seq := env.C_Response_ID c.response }
      let r : Response := { r with Error := c.response.Error }
      let r : Response := { r with ServiceMethod := c.pending.load r.Seq }
      ⟨Ret.nil, { c with pending := c.pending.delete r.Seq }, r⟩

/-- What a call of `ReadResponseBody` leaves behind: its result, the codec, the
value `param` points to (`none` for a nil `param`), and the calls into other
packages it made. -/
structure BodyResult (α : Type) where
  ret : Ret
  codec : clientCodec α
  param : Option α
  calls : List Call

/-- The method `ReadResponseBody`.  A `param` that is nil is `none`; otherwise
`param` carries the value its target holds. -/
def ReadResponseBody {α : Type} (env : Packages) (c : clientCodec α)
    (param : Option α) : BodyResult α :=
  match param with
  | none =>
    if c.response.ResponseLen ≠ 0 then
      match read c.r c.response.ResponseLen with
      | (.error e, r1) => ⟨Ret.err e, { c with r := r1 }, none, []⟩
      | (.ok _, r1) => ⟨Ret.nil, { c with r := r1 }, none, []⟩
    else ⟨Ret.nil, c, none, []⟩
  | some p =>
    match read c.r c.response.ResponseLen with
    | (.error e, r1) => ⟨Ret.err e, { c with r := r1 }, some p, []⟩
    | (.ok respBody, r1) =>
      let c : clientCodec α := { c with r := r1 }
      let sum : List Call := if c.response.Checksum ≠ 0 then [Call.ChecksumIEEE] else []
      if c.response.Checksum ≠ 0 ∧ ChecksumIEEE respBody ≠ c.response.Checksum then
        ⟨Ret.err Error.UnexpectedChecksumError, c, some p, sum⟩
      else if c.response.GetCompressType ≠ c.compressor then
        ⟨Ret.err Error.CompressorTypeMismatchError, c, some p, sum ++ [Call.GetCompressType]⟩
      else
        let calls := sum ++ [Call.GetCompressType, Call.GetCompressType]
        match env.Compressors c.response.GetCompressType with
        | none => ⟨Ret.panic, c, some p, calls⟩
        | some z =>
          match z.Unzip respBody with
          | .error e => ⟨Ret.err (Error.other e), c, some p, calls ++ [Call.Unzip]⟩
          | .ok resp =>
            match c.serializer.Unmarshal resp p with
            | (some e, p1) =>
              ⟨Ret.err (Error.other e), c, some p1, calls ++ [Call.Unzip, Call.Unmarshal]⟩
            | (none, p1) => ⟨Ret.nil, c, some p1, calls ++ [Call.Unzip, Call.Unmarshal]⟩

/-! ## The composition the response path is specified as -/

/-- The result of `serializer.Unmarshal(Unzip(body), param)` as the caller sees
it: the error of `Unzip` with `param` left alone, else the error of `Unmarshal`
and the value it left in `param`. -/
def unmarshalUnzip {α : Type} (z : Compressor) (s : Serializer α) (body : Bytes)
    (p : α) : Ret × α :=
  match z.Unzip body with
  | .error e => (Ret.err (Error.other e), p)
  | .ok resp =>
    match s.Unmarshal resp p with
    | (some e, p1) => (Ret.err (Error.other e), p1)
    | (none, p1) => (Ret.nil, p1)

/-! ## Running the codec over several calls -/

/-- A sequence of `WriteRequest` calls, one after the other, whatever each of
them returns. -/
def writeRequests {α : Type} (env : Packages) (c : clientCodec α) :
    List (Request × α) → clientCodec α
  | [] => c
  | (r, param) :: rest => writeRequests env (WriteRequest env c r param).codec rest

/-- The given number of `ReadResponseHeader` calls, one after the other, each
on a fresh `rpc.Response`: the codec at the end and what each call returned and
filled in. -/
def readResponseHeaders {α : Type} (env : Packages) (c : clientCodec α) :
    Nat → clientCodec α × List (Ret × Response)
  | 0 => (c, [])
  | n + 1 =>
    let res := ReadResponseHeader env c { ServiceMethod := "", Seq := 0, Error := "" }
    let rest := readResponseHeaders env res.codec n
    (rest.1, (res.ret, res.r) :: rest.2)

/-- The bytes of a stream on which the given response headers arrive one after
the other, each in a frame around its encoding by `enc`. -/
def responseFrames (enc : ResponseHeader → Bytes) : List ResponseHeader → Bytes
  | [] => []
  | h :: rest => frame (enc h) ++ responseFrames enc rest

/-! ## Sample plug-ins, used to run the codec on concrete inputs -/

/-- The compressor that leaves its input as it is. -/
def rawCompressor : Compressor :=
  { Zip := fun b => .ok b, Unzip := fun b => .ok b }

/-- A serializer for byte slices: the value is its own encoding. -/
def bytesSerializer : Serializer Bytes :=
  { Marshal := fun v => .ok v, Unmarshal := fun b _ => (none, b) }

/-- The eight bytes of `n` as an unsigned 64-bit number, most significant byte
first. -/
def putUint64 (n : Nat) : Bytes :=
  putUint32 (n / 2 ^ 32 % 2 ^ 32) ++ putUint32 (n % 2 ^ 32)

/-- The bytes of a text, one per character. -/
def textBytes (s : String) : Bytes := s.toList.map Char.toNat

/-- A sample header encoding in the field order of the wire format: an 8-byte
`ID`, the text behind a 4-byte length, the 4-byte body length, one byte of
compressor code, the 4-byte checksum. -/
def sampleHeaderBytes (id : Nat) (text : String) (len code sum : Nat) : Bytes :=
  putUint64 id ++ putUint32 (textBytes text).length ++ textBytes text ++
    putUint32 len ++ [code % 256] ++ putUint32 sum

/-- The sample encoding of a response header, as a server would send it. -/
def sampleMarshalResponse (h : ResponseHeader) : Bytes :=
  sampleHeaderBytes h.ID h.Error h.ResponseLen h.CompressType h.Checksum

/-- The decoder for the sample encoding of a response header. -/
def sampleUnmarshalResponse (b : Bytes) : Except Nat ResponseHeader :=
  match b with
  | i0 :: i1 :: i2 :: i3 :: i4 :: i5 :: i6 :: i7 :: t0 :: t1 :: t2 :: t3 :: rest =>
    match rest.drop (getUint32 t0 t1 t2 t3) with
    | [l0, l1, l2, l3, code, s0, s1, s2, s3] =>
      .ok { ID := getUint32 i0 i1 i2 i3 * 2 ^ 32 + getUint32 i4 i5 i6 i7
            Error := String.mk ((rest.take (getUint32 t0 t1 t2 t3)).map Char.ofNat)
            ResponseLen := getUint32 l0 l1 l2 l3
            CompressType := code
            Checksum := getUint32 s0 s1 s2 s3 }
    | _ => .error 1
  | _ => .error 1

/-- Sample surroundings: code 0 is registered as the compressor that leaves its
input as it is, no other code is registered; headers use the sample encoding;
`C.Response.ID` is zero, the value of a field that nothing has written. -/
def samplePackages : Packages :=
  { Compressors := fun code => if code = 0 then some rawCompressor else none
    MarshalRequest := fun h =>
      sampleHeaderBytes h.ID h.Method h.RequestLen h.CompressType h.Checksum
    UnmarshalResponse := sampleUnmarshalResponse
    C_Response_ID := fun _ => 0 }

/-- The sample surroundings with line 101 repaired: `C.Response.ID` is the `ID`
of the header just decoded, as if the line read `r.Seq = c.response.ID`. -/
def repairedPackages : Packages :=
  { samplePackages with C_Response_ID := fun h => h.ID }

/-- A body of 2^32 zero bytes. -/
@[irreducible] def fourGiB : Bytes := List.replicate 4294967296 0

/-- A sample codec: compressor code 0, the serializer for byte slices, nothing
to read, and a connection with room for 4096 bytes. -/
def sampleCodec : clientCodec Bytes :=
  NewClientCodec [] { sent := [], room := 4096, fault := 7 } 0 bytesSerializer

/-! ## Lemmas on the checksum -/

set_option maxRecDepth 8000 in
/-- The check value of CRC-32: the checksum of the ASCII digits `123456789` is
`0xcbf43926`. -/
theorem ChecksumIEEE_check :
    ChecksumIEEE [49, 50, 51, 52, 53, 54, 55, 56, 57] = 0xcbf43926 := by
  decide

theorem crcShift_lt {s : Nat} (h : s < 2 ^ 32) : crcShift s < 2 ^ 32 := by
  unfold crcShift
  split
  · exact Nat.xor_lt_two_pow (by omega) (by decide)
  · omega

theorem crcShift_inj {s t : Nat} (hs : s < 2 ^ 32) (ht : t < 2 ^ 32)
    (h : crcShift s = crcShift t) : s = t := by
  have top : ∀ a : Nat, a < 2 ^ 31 → (a ^^^ IEEE).testBit 31 = true := by
    intro a ha
    rw [Nat.testBit_xor, Nat.testBit_lt_two_pow ha]
    decide
  have low : ∀ a : Nat, a < 2 ^ 31 → a.testBit 31 = false :=
    fun a ha => Nat.testBit_lt_two_pow ha
  unfold crcShift at h
  split at h <;> split at h
  · have := Nat.xor_left_inj.mp h
    omega
  · have h1 := top (s / 2) (by omega)
    have h2 := low (t / 2) (by omega)
    rw [h, h2] at h1
    exact absurd h1 (by decide)
  · have h1 := top (t / 2) (by omega)
    have h2 := low (s / 2) (by omega)
    rw [← h, h2] at h1
    exact absurd h1 (by decide)
  · omega

theorem crcUpdateByte_lt {s v : Nat} (hs : s < 2 ^ 32) (hv : v < 256) :
    crcUpdateByte s v < 2 ^ 32 := by
  have h0 : s ^^^ v < 2 ^ 32 := Nat.xor_lt_two_pow hs (by omega)
  unfold crcUpdateByte
  exact crcShift_lt (crcShift_lt (crcShift_lt (crcShift_lt (crcShift_lt
    (crcShift_lt (crcShift_lt (crcShift_lt h0)))))))

theorem crcUpdateByte_inj {a b : Nat} (ha : a < 2 ^ 32) (hb : b < 2 ^ 32)
    (h : crcShift (crcShift (crcShift (crcShift (crcShift (crcShift (crcShift
      (crcShift a))))))) =
      crcShift (crcShift (crcShift (crcShift (crcShift (crcShift (crcShift
      (crcShift b)))))))) : a = b := by
  have l1 := fun {x : Nat} (h : x < 2 ^ 32) => crcShift_lt h
  have e7 := crcShift_inj (l1 (l1 (l1 (l1 (l1 (l1 (l1 ha)))))))
    (l1 (l1 (l1 (l1 (l1 (l1 (l1 hb))))))) h
  have e6 := crcShift_inj (l1 (l1 (l1 (l1 (l1 (l1 ha)))))) (l1 (l1 (l1 (l1 (l1 (l1 hb)))))) e7
  have e5 := crcShift_inj (l1 (l1 (l1 (l1 (l1 ha))))) (l1 (l1 (l1 (l1 (l1 hb))))) e6
  have e4 := crcShift_inj (l1 (l1 (l1 (l1 ha)))) (l1 (l1 (l1 (l1 hb)))) e5
  have e3 := crcShift_inj (l1 (l1 (l1 ha))) (l1 (l1 (l1 hb))) e4
  have e2 := crcShift_inj (l1 (l1 ha)) (l1 (l1 hb)) e3
  have e1 := crcShift_inj (l1 ha) (l1 hb) e2
  exact crcShift_inj ha hb e1

/-- Two registers that agree after the same byte agreed before it. -/
theorem crcUpdateByte_inj_left {s t v : Nat} (hs : s < 2 ^ 32) (ht : t < 2 ^ 32)
    (hv : v < 256) (h : crcUpdateByte s v = crcUpdateByte t v) : s = t := by
  have hv32 : v < 2 ^ 32 := by omega
  exact Nat.xor_left_inj.mp
    (crcUpdateByte_inj (Nat.xor_lt_two_pow hs hv32) (Nat.xor_lt_two_pow ht hv32) h)

/-- One register takes two different bytes to two different registers. -/
theorem crcUpdateByte_inj_right {s v w : Nat} (hs : s < 2 ^ 32) (hv : v < 256)
    (hw : w < 256) (h : crcUpdateByte s v = crcUpdateByte s w) : v = w := by
  have hv32 : v < 2 ^ 32 := by omega
  have hw32 : w < 2 ^ 32 := by omega
  exact Nat.xor_right_inj.mp
    (crcUpdateByte_inj (Nat.xor_lt_two_pow hs hv32) (Nat.xor_lt_two_pow hs hw32) h)

theorem crcUpdate_inj (p : Bytes) (hp : ∀ x ∈ p, x < 256) :
    ∀ {s t : Nat}, s < 2 ^ 32 → t < 2 ^ 32 → crcUpdate s p = crcUpdate t p → s = t := by
  induction p with
  | nil => intro s t _ _ h; exact h
  | cons v p ih =>
    intro s t hs ht h
    have hv : v < 256 := hp v (List.mem_cons_self v p)
    have hp1 : ∀ x ∈ p, x < 256 := fun x hx => hp x (List.mem_cons_of_mem v hx)
    exact crcUpdateByte_inj_left hs ht hv
      (ih hp1 (crcUpdateByte_lt hs hv) (crcUpdateByte_lt ht hv) h)

/-- Replacing one byte of the input by a different byte changes the register. -/
theorem crcUpdate_set_ne (p : Bytes) (hp : ∀ x ∈ p, x < 256) :
    ∀ (k x s : Nat), k < p.length → x < 256 → x ≠ p.getD k 0 → s < 2 ^ 32 →
      crcUpdate s (p.set k x) ≠ crcUpdate s p := by
  induction p with
  | nil => intro k x s hk; simp at hk
  | cons v p ih =>
    intro k x s hk hx hne hs
    have hv : v < 256 := hp v (List.mem_cons_self v p)
    have hp1 : ∀ x ∈ p, x < 256 := fun x hx => hp x (List.mem_cons_of_mem v hx)
    cases k with
    | zero =>
      intro h
      have h1 : crcUpdate (crcUpdateByte s x) p = crcUpdate (crcUpdateByte s v) p := h
      have h2 := crcUpdate_inj p hp1 (crcUpdateByte_lt hs hx) (crcUpdateByte_lt hs hv) h1
      exact hne (crcUpdateByte_inj_right hs hx hv h2)
    | succ k =>
      have hk1 : k < p.length := by simpa using hk
      have hne1 : x ≠ p.getD k 0 := by simpa using hne
      exact ih hp1 k x (crcUpdateByte s v) hk1 hx hne1 (crcUpdateByte_lt hs hv)

theorem xor_two_pow_ne (v j : Nat) : v ^^^ 2 ^ j ≠ v := by
  intro h
  have h1 : v ^^^ 2 ^ j = v ^^^ 0 := by rw [Nat.xor_zero]; exact h
  have h2 := Nat.xor_right_inj.mp h1
  exact absurd h2 (by positivity)

theorem getD_lt_of_forall_lt (p : Bytes) (hp : ∀ x ∈ p, x < 256) (k : Nat) :
    p.getD k 0 < 256 := by
  by_cases hk : k < p.length
  · rw [List.getD_eq_getElem p 0 hk]
    exact hp _ (List.getElem_mem hk)
  · rw [List.getD_eq_default p 0 (by omega)]
    decide

/-- The checksum tells a byte slice from every slice that differs from it in
one bit. -/
theorem ChecksumIEEE_flipBit_ne (b : Bytes) (hb : ∀ x ∈ b, x < 256) (i : Nat)
    (hi : i < 8 * b.length) : ChecksumIEEE (flipBit b i) ≠ ChecksumIEEE b := by
  intro h
  have hk : i / 8 < b.length := by omega
  have hj : (2 : Nat) ^ (i % 8) < 256 := by
    have : i % 8 < 8 := Nat.mod_lt _ (by decide)
    calc (2 : Nat) ^ (i % 8) < 2 ^ 8 := Nat.pow_lt_pow_right (by decide) this
      _ = 256 := by norm_num
  have hx : b.getD (i / 8) 0 ^^^ 2 ^ (i % 8) < 256 :=
    Nat.xor_lt_two_pow (n := 8) (getD_lt_of_forall_lt b hb _) hj
  exact crcUpdate_set_ne b hb (i / 8) _ 0xffffffff hk hx (xor_two_pow_ne _ _) (by decide)
    (Nat.xor_left_inj.mp h)

/-! ## Lemmas on the buffered writer -/

theorem Conn.Write_sent (c : Conn) (p : Bytes) :
    (c.Write p).2.2.sent ++ p.drop (c.Write p).1 = c.sent ++ p := by
  unfold Conn.Write
  split <;> simp

/-- `Flush` neither loses nor reorders bytes: what the connection has plus what
is buffered stays the same. -/
theorem Writer.Flush_out (b : Writer) :
    b.Flush.2.wr.sent ++ b.Flush.2.buf = b.wr.sent ++ b.buf := by
  cases he : b.err <;> by_cases h0 : b.buf.length = 0 <;>
    by_cases hr : b.buf.length ≤ b.wr.room <;>
    simp [Writer.Flush, Conn.Write, he, h0, hr]

/-- The error `Flush` returns is the sticky error of the writer afterwards. -/
theorem Writer.Flush_err (b : Writer) : b.Flush.1 = b.Flush.2.err := by
  cases he : b.err <;> by_cases h0 : b.buf.length = 0 <;>
    by_cases hr : b.buf.length ≤ b.wr.room <;>
    simp [Writer.Flush, Conn.Write, he, h0, hr]

/-- A `Flush` without error leaves the buffer empty. -/
theorem Writer.Flush_buf (b : Writer) (h : b.Flush.2.err = none) : b.Flush.2.buf = [] := by
  revert h
  cases he : b.err <;> by_cases h0 : b.buf.length = 0 <;>
    by_cases hr : b.buf.length ≤ b.wr.room <;>
    simp [Writer.Flush, Conn.Write, he, h0, hr]
  · simpa using h0
  · simpa using h0

theorem Writer.writeLoop_out : ∀ (fuel : Nat) (b : Writer) (p : Bytes) (nn : Nat),
    (Writer.writeLoop fuel b p nn).1.wr.sent ++ (Writer.writeLoop fuel b p nn).1.buf
      ++ (Writer.writeLoop fuel b p nn).2.1 = b.wr.sent ++ b.buf ++ p := by
  intro fuel
  induction fuel with
  | zero => intro b p nn; rfl
  | succ fuel ih =>
    intro b p nn
    unfold Writer.writeLoop
    split
    · split
      · next hb =>
        have hb0 : b.buf = [] := by simpa [Writer.Buffered] using hb
        rw [ih]
        have h := Conn.Write_sent b.wr p
        simp only [hb0, List.append_nil, List.append_assoc] at h ⊢
        exact h
      · rw [ih]
        have h := Writer.Flush_out { b with buf := b.buf ++ p.take (min b.Available p.length) }
        rw [h]
        simp
    · rfl

/-- The error `Write` returns is the sticky error of the writer afterwards. -/
theorem Writer.Write_err (b : Writer) (p : Bytes) : (b.Write p).2.1 = (b.Write p).2.2.err := by
  unfold Writer.Write
  split
  next b1 p1 nn _ =>
    split
    · next e he => simp [he]
    · next he => simp [he]

/-- A `Write` without error neither loses nor reorders bytes. -/
theorem Writer.Write_out (b : Writer) (p : Bytes) (h : (b.Write p).2.2.err = none) :
    (b.Write p).2.2.wr.sent ++ (b.Write p).2.2.buf = b.wr.sent ++ b.buf ++ p := by
  have hl := Writer.writeLoop_out 3 b p 0
  unfold Writer.Write at h ⊢
  split at h
  next b1 p1 nn heq =>
    rw [heq] at hl
    split
    · next e he => simp [he] at h
    · simpa using hl

theorem write_err (w : Writer) (p : Bytes) : (write w p).1 = (write w p).2.err :=
  Writer.Write_err w p

theorem write_out (w : Writer) (p : Bytes) (h : (write w p).2.err = none) :
    (write w p).2.wr.sent ++ (write w p).2.buf = w.wr.sent ++ w.buf ++ p :=
  Writer.Write_out w p h

theorem sendFrame_err (w : Writer) (p : Bytes) : (sendFrame w p).1 = (sendFrame w p).2.err := by
  unfold sendFrame
  split
  · next e w1 heq =>
    have h := write_err w (putUint32 p.length)
    rw [heq] at h
    exact h
  · exact write_err _ p

theorem sendFrame_out (w : Writer) (p : Bytes) (h : (sendFrame w p).2.err = none) :
    (sendFrame w p).2.wr.sent ++ (sendFrame w p).2.buf = w.wr.sent ++ w.buf ++ frame p := by
  unfold sendFrame at h ⊢
  split at h
  · next e w1 heq =>
    have h1 := write_err w (putUint32 p.length)
    rw [heq] at h1
    simp at h1 h
    rw [← h1] at h
    exact absurd h (by simp)
  · next w1 heq =>
    have h1 := write_err w (putUint32 p.length)
    have h2 := write_out w (putUint32 p.length)
    rw [heq] at h1 h2
    rw [write_out w1 p h, h2 h1.symm, frame]
    simp

/-- When the condition of the loop of `Write` fails, the loop is over. -/
theorem Writer.writeLoop_done (fuel : Nat) (b : Writer) (p : Bytes) (nn : Nat)
    (h : ¬ (p.length > b.Available ∧ b.err = none)) :
    Writer.writeLoop fuel b p nn = (b, p, nn) := by
  cases fuel with
  | zero => rfl
  | succ fuel => simp only [Writer.writeLoop, h, if_false]

/-- A round of the loop of `Write` that starts with an empty buffer. -/
theorem Writer.writeLoop_direct (fuel : Nat) (b : Writer) (p : Bytes) (nn : Nat)
    (hc : p.length > b.Available ∧ b.err = none) (hb : b.Buffered = 0) :
    Writer.writeLoop (fuel + 1) b p nn =
      Writer.writeLoop fuel { b with err := (b.wr.Write p).2.1, wr := (b.wr.Write p).2.2 }
        (p.drop (b.wr.Write p).1) (nn + (b.wr.Write p).1) := by
  simp only [Writer.writeLoop, hc, hb, and_self, if_true]

/-- A round of the loop of `Write` that starts with bytes in the buffer. -/
theorem Writer.writeLoop_fill (fuel : Nat) (b : Writer) (p : Bytes) (nn : Nat)
    (hc : p.length > b.Available ∧ b.err = none) (hb : ¬ b.Buffered = 0) :
    Writer.writeLoop (fuel + 1) b p nn =
      Writer.writeLoop fuel
        (Writer.Flush { b with buf := b.buf ++ p.take (min b.Available p.length) }).2
        (p.drop (min b.Available p.length)) (nn + min b.Available p.length) := by
  simp only [Writer.writeLoop, hc, hb, and_self, if_true, if_false]

/-- The connection takes all of `p` without error, or reports an error. -/
theorem Conn.Write_cases (c : Conn) (p : Bytes) :
    ((c.Write p).1 = p.length ∧ (c.Write p).2.1 = none) ∨ (c.Write p).2.1 ≠ none := by
  unfold Conn.Write
  split <;> simp

/-- From an empty buffer, or with an error set, one round ends the loop. -/
theorem Writer.writeLoop_exit_empty (fuel : Nat) (b : Writer) (p : Bytes) (nn : Nat)
    (h : b.buf = [] ∨ b.err ≠ none) :
    ¬ ((Writer.writeLoop (fuel + 1) b p nn).2.1.length >
        (Writer.writeLoop (fuel + 1) b p nn).1.Available ∧
      (Writer.writeLoop (fuel + 1) b p nn).1.err = none) := by
  by_cases hc : p.length > b.Available ∧ b.err = none
  · have hb : b.Buffered = 0 := by
      rcases h with h | h
      · simp [Writer.Buffered, h]
      · exact absurd hc.2 h
    have hd : ¬ ((p.drop (b.wr.Write p).1).length >
        Writer.Available { b with err := (b.wr.Write p).2.1, wr := (b.wr.Write p).2.2 } ∧
        (b.wr.Write p).2.1 = none) := by
      rcases Conn.Write_cases b.wr p with hw | hw
      · simp [hw.1]
      · simp [hw]
    rw [Writer.writeLoop_direct fuel b p nn hc hb, Writer.writeLoop_done _ _ _ _ hd]
    exact hd
  · rw [Writer.writeLoop_done _ _ _ _ hc]
    exact hc

/-- After a `Flush` the buffer is empty or the error is set. -/
theorem Writer.Flush_empty_or_err (b : Writer) :
    b.Flush.2.buf = [] ∨ b.Flush.2.err ≠ none := by
  cases he : b.Flush.2.err with
  | none => exact Or.inl (Writer.Flush_buf b he)
  | some e => exact Or.inr (by simp)

/-- Two rounds suffice: when the loop of `Write` is given at least two rounds it
stops because its condition fails, never because the rounds ran out. -/
theorem Writer.writeLoop_exit (fuel : Nat) (b : Writer) (p : Bytes) (nn : Nat) :
    ¬ ((Writer.writeLoop (fuel + 2) b p nn).2.1.length >
        (Writer.writeLoop (fuel + 2) b p nn).1.Available ∧
      (Writer.writeLoop (fuel + 2) b p nn).1.err = none) := by
  by_cases hc : p.length > b.Available ∧ b.err = none
  · by_cases hb : b.Buffered = 0
    · exact Writer.writeLoop_exit_empty (fuel + 1) b p nn
        (Or.inl (by simpa [Writer.Buffered] using hb))
    · rw [Writer.writeLoop_fill (fuel + 1) b p nn hc hb]
      exact Writer.writeLoop_exit_empty fuel _ _ _ (Writer.Flush_empty_or_err _)
  · rw [Writer.writeLoop_done _ _ _ _ hc]
    exact hc

/-! ### A connection with enough room -/

theorem Conn.Write_fits (c : Conn) (p : Bytes) (h : p.length ≤ c.room) :
    (c.Write p).1 = p.length ∧ (c.Write p).2.1 = none ∧
      (c.Write p).2.2.room = c.room - p.length := by
  simp [Conn.Write, h]

theorem Writer.Flush_room (b : Writer) (he : b.err = none) (hr : b.buf.length ≤ b.wr.room) :
    b.Flush.2.err = none ∧ b.Flush.2.buf = [] ∧
      b.Flush.2.wr.room = b.wr.room - b.buf.length := by
  by_cases h0 : b.buf.length = 0
  · have hb : b.buf = [] := by simpa using h0
    simp [Writer.Flush, he, hb]
  · simp [Writer.Flush, Conn.Write, he, h0, hr]

theorem Writer.writeLoop_room (k : Nat) : ∀ (fuel : Nat) (b : Writer) (p : Bytes) (nn : Nat),
    b.err = none → b.wr.room = b.buf.length + p.length + k →
    (Writer.writeLoop fuel b p nn).1.err = none ∧
      (Writer.writeLoop fuel b p nn).1.wr.room =
        (Writer.writeLoop fuel b p nn).1.buf.length +
          (Writer.writeLoop fuel b p nn).2.1.length + k := by
  intro fuel
  induction fuel with
  | zero => intro b p nn he hr; exact ⟨he, hr⟩
  | succ fuel ih =>
    intro b p nn he hr
    by_cases hc : p.length > b.Available ∧ b.err = none
    · by_cases hb : b.Buffered = 0
      · have hb0 : b.buf = [] := by simpa [Writer.Buffered] using hb
        have hw := Conn.Write_fits b.wr p (by omega)
        rw [Writer.writeLoop_direct fuel b p nn hc hb]
        apply ih
        · exact hw.2.1
        · simp only [hw.1, hw.2.2, hb0, List.drop_length, List.length_nil] at hr ⊢
          omega
      · rw [Writer.writeLoop_fill fuel b p nn hc hb]
        have hf := Writer.Flush_room
          { b with buf := b.buf ++ p.take (min b.Available p.length) } he
          (by simp; omega)
        apply ih
        · exact hf.1
        · rw [hf.2.1, hf.2.2]
          simp
          omega
    · rw [Writer.writeLoop_done _ _ _ _ hc]
      exact ⟨he, hr⟩

/-- A `Write` into a writer without error whose connection has room for the
buffer and `p` and `k` more bytes succeeds and leaves that room for `k`. -/
theorem Writer.Write_room (k : Nat) (b : Writer) (p : Bytes) (he : b.err = none)
    (hr : b.wr.room = b.buf.length + p.length + k) :
    (b.Write p).2.2.err = none ∧
      (b.Write p).2.2.wr.room = (b.Write p).2.2.buf.length + k := by
  have hl := Writer.writeLoop_room k 3 b p 0 he hr
  unfold Writer.Write
  split
  next b1 p1 nn heq =>
    rw [heq] at hl
    simp only at hl
    simp only [hl.1, List.length_append, true_and]
    omega

theorem write_room (k : Nat) (w : Writer) (p : Bytes) (he : w.err = none)
    (hr : w.wr.room = w.buf.length + p.length + k) :
    (write w p).2.err = none ∧ (write w p).2.wr.room = (write w p).2.buf.length + k :=
  Writer.Write_room k w p he hr

theorem sendFrame_room (k : Nat) (w : Writer) (p : Bytes) (he : w.err = none)
    (hr : w.wr.room = w.buf.length + (4 + p.length) + k) :
    (sendFrame w p).2.err = none ∧
      (sendFrame w p).2.wr.room = (sendFrame w p).2.buf.length + k := by
  have h1 := write_room (p.length + k) w (putUint32 p.length) he
    (by simp [putUint32]; omega)
  have e1 := write_err w (putUint32 p.length)
  unfold sendFrame
  split
  · next e w1 heq =>
    rw [heq] at e1 h1
    simp only at e1 h1
    rw [← e1] at h1
    exact absurd h1.1 (by simp)
  · next w1 heq =>
    rw [heq] at h1
    exact write_room k w1 p h1.1 (by have := h1.2; simp only at this; omega)

/-! ## The codec: reading a response body -/

theorem read_ok (r : Bytes) (n : Nat) (h : n ≤ r.length) :
    read r n = (.ok (r.take n), r.drop n) := by
  simp [read, h]

/-- A `ReadResponseBody` that returns one of the two sentinel errors of the body
checks got the whole body from the stream. -/
theorem ReadResponseBody_sentinel_len {α : Type} (env : Packages) (c : clientCodec α)
    (param : Option α)
    (h : (ReadResponseBody env c param).ret = Ret.err Error.UnexpectedChecksumError ∨
      (ReadResponseBody env c param).ret = Ret.err Error.CompressorTypeMismatchError) :
    param ≠ none ∧ c.response.ResponseLen ≤ c.r.length := by
  by_cases hlen : c.response.ResponseLen ≤ c.r.length
  · refine ⟨?_, hlen⟩
    rintro rfl
    by_cases h0 : c.response.ResponseLen = 0 <;>
      simp [ReadResponseBody, read, hlen, h0] at h
  · exfalso
    cases param with
    | none =>
      by_cases h0 : c.response.ResponseLen = 0 <;>
        simp [ReadResponseBody, read, hlen, h0] at h
    | some p => simp [ReadResponseBody, read, hlen] at h

/-- With the body on the stream, `ReadResponseBody` leaves the codec as it was
except that the body is read, whatever it returns. -/
theorem ReadResponseBody_codec {α : Type} (env : Packages) (c : clientCodec α)
    (param : Option α) (hlen : c.response.ResponseLen ≤ c.r.length) :
    (ReadResponseBody env c param).codec = { c with r := c.r.drop c.response.ResponseLen } := by
  cases param with
  | none =>
    by_cases h0 : c.response.ResponseLen = 0
    · simp [ReadResponseBody, h0]
    · simp [ReadResponseBody, read, hlen, h0]
  | some p =>
    simp only [ReadResponseBody, read_ok _ _ hlen]
    split
    · rfl
    · split
      · rfl
      · split
        · rfl
        · split
          · rfl
          · split <;> rfl

/-- Claim C7. `ReadResponseBody(nil)` on a buffered header with `ResponseLen = n`
(zero included) and a stream with at least `n` unread bytes returns success,
takes exactly the first `n` unread bytes off the stream and changes nothing
else in the codec, and calls nothing outside: no checksum, no look at the
compressor code, no `Unzip`, no `Unmarshal`. -/
theorem ReadResponseBody_nil_discards {α : Type} (env : Packages) (c : clientCodec α)
    (hlen : c.response.ResponseLen ≤ c.r.length) :
    (ReadResponseBody env c none).ret = Ret.nil ∧
    (ReadResponseBody env c none).codec.r = c.r.drop c.response.ResponseLen ∧
    (ReadResponseBody env c none).codec = { c with r := c.r.drop c.response.ResponseLen } ∧
    (ReadResponseBody env c none).calls = [] ∧
    (ReadResponseBody env c none).param = none := by
  by_cases h0 : c.response.ResponseLen = 0
  · simp [ReadResponseBody, h0]
  · simp [ReadResponseBody, read, hlen, h0]

/-- The spec's scenario for C7: a response with `ResponseLen = 17` and twenty
unread bytes, of which the last three belong to the next frame. -/
theorem ReadResponseBody_nil_discards_witness :
    (17 ≤ (List.range 20).length) ∧
    (ReadResponseBody samplePackages
      { sampleCodec with
        r := List.range 20
        response := { CompressType := 0, Error := "", ID := 1, ResponseLen := 17,
                      Checksum := 0 } } none).codec.r = [17, 18, 19] :=
  ⟨by decide,
   (ReadResponseBody_nil_discards samplePackages
      { sampleCodec with
        r := List.range 20
        response := { CompressType := 0, Error := "", ID := 1, ResponseLen := 17,
                      Checksum := 0 } } (by decide)).2.1⟩

/-- What `ReadResponseBody` returns once the body is read and both checks have
passed: the result of `Unmarshal(Unzip(body), param)`. -/
theorem ReadResponseBody_checked {α : Type} (env : Packages) (c : clientCodec α) (p : α)
    (z : Compressor) (hlen : c.response.ResponseLen ≤ c.r.length)
    (hsum : c.response.Checksum = 0 ∨
      c.response.Checksum = ChecksumIEEE (c.r.take c.response.ResponseLen))
    (hct : c.response.CompressType = c.compressor)
    (hreg : env.Compressors c.compressor = some z) :
    (ReadResponseBody env c (some p)).ret =
      (unmarshalUnzip z c.serializer (c.r.take c.response.ResponseLen) p).1 ∧
    (ReadResponseBody env c (some p)).param =
      some (unmarshalUnzip z c.serializer (c.r.take c.response.ResponseLen) p).2 := by
  have hs : ¬ (c.response.Checksum ≠ 0 ∧
      ChecksumIEEE (c.r.take c.response.ResponseLen) ≠ c.response.Checksum) := by
    rintro ⟨h1, h2⟩
    rcases hsum with h | h
    · exact h1 h
    · exact h2 h.symm
  simp only [ReadResponseBody, read_ok _ _ hlen, hs, if_false,
    ResponseHeader.GetCompressType, hct, ne_eq, not_true_eq_false, hreg, unmarshalUnzip]
  cases z.Unzip (c.r.take c.response.ResponseLen) with
  | error e => exact ⟨rfl, rfl⟩
  | ok resp =>
    simp only
    rcases hu : c.serializer.Unmarshal resp p with ⟨e, p1⟩
    cases e with
    | none => exact ⟨rfl, rfl⟩
    | some e => exact ⟨rfl, rfl⟩

/-- The composition `Unmarshal(Unzip(body), param)` never yields one of the
codec's own sentinel errors. -/
theorem unmarshalUnzip_other {α : Type} (z : Compressor) (s : Serializer α) (body : Bytes)
    (p : α) : (unmarshalUnzip z s body p).1 = Ret.nil ∨
      ∃ e, (unmarshalUnzip z s body p).1 = Ret.err (Error.other e) := by
  unfold unmarshalUnzip
  cases z.Unzip body with
  | error e => exact Or.inr ⟨e, rfl⟩
  | ok resp =>
    simp only
    rcases hu : s.Unmarshal resp p with ⟨e, p1⟩
    cases e with
    | none => exact Or.inl rfl
    | some e => exact Or.inr ⟨e, rfl⟩

/-- Claim C2. For a buffered response header and a non-nil `param`, when the
stream holds at least `ResponseLen` bytes, the header's `Checksum` is zero or
the CRC-32 of the `ResponseLen` bytes read, and the header's `CompressType` is
the codec's configured compressor, which is registered, `ReadResponseBody`
returns exactly the result of `Unmarshal(Unzip(body), param)` and `param` holds
what `Unmarshal` left there; the result is neither `UnexpectedChecksumError`
nor `CompressorTypeMismatchError`; and when the body is `Zip(Marshal(v))` of a
writer whose `Zip` and `Marshal` are undone by this codec's `Unzip` and
`Unmarshal`, the call succeeds and `param` holds `v`. -/
theorem ReadResponseBody_unmarshals {α : Type} (env : Packages) (c : clientCodec α) (p : α)
    (z : Compressor) (hlen : c.response.ResponseLen ≤ c.r.length)
    (hsum : c.response.Checksum = 0 ∨
      c.response.Checksum = ChecksumIEEE (c.r.take c.response.ResponseLen))
    (hct : c.response.CompressType = c.compressor)
    (hreg : env.Compressors c.compressor = some z) :
    (ReadResponseBody env c (some p)).ret =
      (unmarshalUnzip z c.serializer (c.r.take c.response.ResponseLen) p).1 ∧
    (ReadResponseBody env c (some p)).param =
      some (unmarshalUnzip z c.serializer (c.r.take c.response.ResponseLen) p).2 ∧
    (ReadResponseBody env c (some p)).ret ≠ Ret.err Error.UnexpectedChecksumError ∧
    (ReadResponseBody env c (some p)).ret ≠ Ret.err Error.CompressorTypeMismatchError ∧
    (∀ (zw : Compressor) (sw : Serializer α) (v : α) (plain : Bytes),
      sw.Marshal v = .ok plain →
      zw.Zip plain = .ok (c.r.take c.response.ResponseLen) →
      (∀ x y, zw.Zip x = .ok y → z.Unzip y = .ok x) →
      (∀ u x q, sw.Marshal u = .ok x → c.serializer.Unmarshal x q = (none, u)) →
      (ReadResponseBody env c (some p)).ret = Ret.nil ∧
        (ReadResponseBody env c (some p)).param = some v) := by
  have h := ReadResponseBody_checked env c p z hlen hsum hct hreg
  have ho := unmarshalUnzip_other z c.serializer (c.r.take c.response.ResponseLen) p
  refine ⟨h.1, h.2, ?_, ?_, ?_⟩
  · rw [h.1]
    rcases ho with ho | ⟨e, ho⟩ <;> rw [ho] <;> simp
  · rw [h.1]
    rcases ho with ho | ⟨e, ho⟩ <;> rw [ho] <;> simp
  · intro zw sw v plain hm hz hinvz hinvs
    rw [h.1, h.2]
    simp [unmarshalUnzip, hinvz plain _ hz, hinvs v plain p hm]

/-- An instance of C2: the body `[5, 6, 7]` with its checksum in the header,
read by the sample codec, whose plug-ins undo themselves. -/
theorem ReadResponseBody_unmarshals_witness :
    (ReadResponseBody samplePackages
      { sampleCodec with
        r := [5, 6, 7, 0, 0]
        response := { CompressType := 0, Error := "", ID := 1, ResponseLen := 3,
                      Checksum := ChecksumIEEE [5, 6, 7] } } (some [])).ret = Ret.nil ∧
    (ReadResponseBody samplePackages
      { sampleCodec with
        r := [5, 6, 7, 0, 0]
        response := { CompressType := 0, Error := "", ID := 1, ResponseLen := 3,
                      Checksum := ChecksumIEEE [5, 6, 7] } } (some [])).param =
      some [5, 6, 7] :=
  (ReadResponseBody_unmarshals samplePackages
      { sampleCodec with
        r := [5, 6, 7, 0, 0]
        response := { CompressType := 0, Error := "", ID := 1, ResponseLen := 3,
                      Checksum := ChecksumIEEE [5, 6, 7] } } [] rawCompressor
      (by decide) (Or.inr rfl) rfl rfl).2.2.2.2
    rawCompressor bytesSerializer [5, 6, 7] [5, 6, 7] rfl rfl
    (by intro x y h; cases h; rfl) (by intro u x q h; cases h; rfl)

theorem flipBit_length (b : Bytes) (i : Nat) : (flipBit b i).length = b.length := by
  simp [flipBit]

/-- What `ReadResponseBody` does when the header's checksum is not zero and is
not the checksum of the bytes read. -/
theorem ReadResponseBody_bad_sum {α : Type} (env : Packages) (c : clientCodec α) (p : α)
    (hlen : c.response.ResponseLen ≤ c.r.length) (h0 : c.response.Checksum ≠ 0)
    (hne : ChecksumIEEE (c.r.take c.response.ResponseLen) ≠ c.response.Checksum) :
    (ReadResponseBody env c (some p)).ret = Ret.err Error.UnexpectedChecksumError ∧
    (ReadResponseBody env c (some p)).calls = [Call.ChecksumIEEE] := by
  simp [ReadResponseBody, read_ok _ _ hlen, h0, hne]

/-- A `ReadResponseBody` whose header carries the checksum of the bytes read
does not return `UnexpectedChecksumError`. -/
theorem ReadResponseBody_good_sum {α : Type} (env : Packages) (c : clientCodec α) (p : α)
    (hlen : c.response.ResponseLen ≤ c.r.length)
    (hsum : c.response.Checksum = ChecksumIEEE (c.r.take c.response.ResponseLen)) :
    (ReadResponseBody env c (some p)).ret ≠ Ret.err Error.UnexpectedChecksumError := by
  have hs : ¬ (c.response.Checksum ≠ 0 ∧
      ChecksumIEEE (c.r.take c.response.ResponseLen) ≠ c.response.Checksum) :=
    fun h => h.2 hsum.symm
  simp only [ReadResponseBody, read_ok _ _ hlen, hs, if_false]
  split
  · simp
  · split
    · simp
    · split
      · simp
      · split <;> simp

/-- Claim C5, as amended. Let `b` be any body, the empty one included, `k` its
CRC-32, and let the buffered response header carry `Checksum = k` and
`ResponseLen = len(b)`.  With `b` untouched on the stream, `ReadResponseBody`
with a non-nil `param` does not fail with `UnexpectedChecksumError`.  With `b`,
a slice of bytes, changed in exactly one bit on the stream, whichever bit it
is, the call fails with `UnexpectedChecksumError` provided `k` is not zero; a
header checksum of zero switches the check off. -/
theorem ReadResponseBody_detects_bit_flip {α : Type} (env : Packages) (c : clientCodec α)
    (p : α) (b rest : Bytes)
    (hsum : c.response.Checksum = ChecksumIEEE b)
    (hlen : c.response.ResponseLen = b.length) :
    (∀ i : Nat, (∀ x ∈ b, x < 256) → i < 8 * b.length → ChecksumIEEE b ≠ 0 →
      (ReadResponseBody env { c with r := flipBit b i ++ rest } (some p)).ret =
        Ret.err Error.UnexpectedChecksumError) ∧
    (ReadResponseBody env { c with r := b ++ rest } (some p)).ret ≠
      Ret.err Error.UnexpectedChecksumError := by
  constructor
  · intro i hb hi hk
    refine (ReadResponseBody_bad_sum env { c with r := flipBit b i ++ rest } p ?_ ?_ ?_).1
    · simp [hlen, flipBit_length]
    · simpa [hsum] using hk
    · have ht : (flipBit b i ++ rest).take b.length = flipBit b i := by
        rw [← flipBit_length b i, List.take_left']
        rfl
      simp only [hlen, ht, hsum]
      exact ChecksumIEEE_flipBit_ne b hb i hi
  · refine ReadResponseBody_good_sum env { c with r := b ++ rest } p ?_ ?_
    · simp [hlen]
    · simp [hlen, hsum]

/-- An instance of C5: the body `[5, 6, 7]`, and the same body with the low bit
of its first byte flipped. -/
theorem ReadResponseBody_detects_bit_flip_witness :
    ChecksumIEEE [5, 6, 7] ≠ 0 ∧ flipBit [5, 6, 7] 0 = [4, 6, 7] ∧
    (ReadResponseBody samplePackages
      { ({ sampleCodec with
            response := { CompressType := 0, Error := "", ID := 1, ResponseLen := 3,
                          Checksum := ChecksumIEEE [5, 6, 7] } } : clientCodec Bytes) with
        r := flipBit [5, 6, 7] 0 ++ [9] } (some [])).ret =
      Ret.err Error.UnexpectedChecksumError ∧
    (ReadResponseBody samplePackages
      { ({ sampleCodec with
            response := { CompressType := 0, Error := "", ID := 1, ResponseLen := 3,
                          Checksum := ChecksumIEEE [5, 6, 7] } } : clientCodec Bytes) with
        r := [5, 6, 7] ++ [9] } (some [])).ret ≠
      Ret.err Error.UnexpectedChecksumError :=
  ⟨by decide, by decide,
   (ReadResponseBody_detects_bit_flip samplePackages
      { sampleCodec with
        response := { CompressType := 0, Error := "", ID := 1, ResponseLen := 3,
                      Checksum := ChecksumIEEE [5, 6, 7] } } [] [5, 6, 7] [9]
      rfl rfl).1 0 (by decide) (by decide) (by decide),
   (ReadResponseBody_detects_bit_flip samplePackages
      { sampleCodec with
        response := { CompressType := 0, Error := "", ID := 1, ResponseLen := 3,
                      Checksum := ChecksumIEEE [5, 6, 7] } } [] [5, 6, 7] [9]
      rfl rfl).2⟩

/-- Claim C5 as stated fails. The body `[157, 10, 217, 109]` has CRC-32 zero.  A
header that carries this checksum and the length 4 makes `ReadResponseBody`
accept the body with the low bit of its first byte flipped: the call returns
success, not `UnexpectedChecksumError`. -/
theorem ReadResponseBody_zero_sum_accepts_flip :
    ChecksumIEEE [157, 10, 217, 109] = 0 ∧
    flipBit [157, 10, 217, 109] 0 = [156, 10, 217, 109] ∧
    (ReadResponseBody samplePackages
      { sampleCodec with
        r := flipBit [157, 10, 217, 109] 0
        response := { CompressType := 0, Error := "", ID := 1, ResponseLen := 4,
                      Checksum := ChecksumIEEE [157, 10, 217, 109] } } (some [])).ret =
      Ret.nil ∧
    ¬ ((ReadResponseBody samplePackages
      { sampleCodec with
        r := flipBit [157, 10, 217, 109] 0
        response := { CompressType := 0, Error := "", ID := 1, ResponseLen := 4,
                      Checksum := ChecksumIEEE [157, 10, 217, 109] } } (some [])).ret =
      Ret.err Error.UnexpectedChecksumError) := by
  refine ⟨by decide, by decide, by decide, by decide⟩

/-- Claim C6, as amended. For a response header that declares compressor code `X`
and a codec configured for a code `Y` different from `X`, `ReadResponseBody`
with a non-nil `param` and the full body on the stream never calls `Unzip` or
`Unmarshal` and fails: with `UnexpectedChecksumError` when the header's
checksum is not zero and is not the CRC-32 of the body, and with
`CompressorTypeMismatchError` in every other case. -/
theorem ReadResponseBody_mismatch {α : Type} (env : Packages) (c : clientCodec α) (p : α)
    (hne : c.response.CompressType ≠ c.compressor)
    (hlen : c.response.ResponseLen ≤ c.r.length) :
    ((c.response.Checksum = 0 ∨
        c.response.Checksum = ChecksumIEEE (c.r.take c.response.ResponseLen)) →
      (ReadResponseBody env c (some p)).ret = Ret.err Error.CompressorTypeMismatchError) ∧
    ((c.response.Checksum ≠ 0 ∧
        c.response.Checksum ≠ ChecksumIEEE (c.r.take c.response.ResponseLen)) →
      (ReadResponseBody env c (some p)).ret = Ret.err Error.UnexpectedChecksumError) ∧
    Call.Unzip ∉ (ReadResponseBody env c (some p)).calls ∧
    Call.Unmarshal ∉ (ReadResponseBody env c (some p)).calls := by
  by_cases hs : c.response.Checksum ≠ 0 ∧
      ChecksumIEEE (c.r.take c.response.ResponseLen) ≠ c.response.Checksum
  · have h := ReadResponseBody_bad_sum env c p hlen hs.1 hs.2
    rw [h.1, h.2]
    refine ⟨?_, fun _ => rfl, by decide, by decide⟩
    rintro (h0 | h1)
    · exact absurd h0 hs.1
    · exact absurd h1.symm hs.2
  · have hr : (ReadResponseBody env c (some p)).ret = Ret.err Error.CompressorTypeMismatchError ∧
        (ReadResponseBody env c (some p)).calls =
          (if c.response.Checksum ≠ 0 then [Call.ChecksumIEEE] else []) ++
            [Call.GetCompressType] := by
      simp only [ReadResponseBody, read_ok _ _ hlen, hs, if_false,
        ResponseHeader.GetCompressType, ne_eq, hne, not_false_eq_true, if_true, and_self]
    rw [hr.1, hr.2]
    refine ⟨fun _ => rfl, ?_, ?_, ?_⟩
    · rintro ⟨h0, h1⟩
      exact absurd ⟨h0, fun h => h1 h.symm⟩ hs
    · split <;> decide
    · split <;> decide

/-- An instance of C6: a header that declares code 1, read by the sample codec,
which is configured for code 0. -/
theorem ReadResponseBody_mismatch_witness :
    (1 : Nat) ≠ 0 ∧
    (ReadResponseBody samplePackages
      { sampleCodec with
        r := [5, 6, 7]
        response := { CompressType := 1, Error := "", ID := 1, ResponseLen := 3,
                      Checksum := 0 } } (some [])).ret =
      Ret.err Error.CompressorTypeMismatchError :=
  ⟨by decide,
   (ReadResponseBody_mismatch samplePackages
      { sampleCodec with
        r := [5, 6, 7]
        response := { CompressType := 1, Error := "", ID := 1, ResponseLen := 3,
                      Checksum := 0 } } [] (by decide) (by decide)).1 (Or.inl rfl)⟩

/-- Claim C6 as stated fails. A header that declares code 1 and carries a
checksum that is not the body's, read by a codec configured for code 0 with the
full body on the stream: the call fails with `UnexpectedChecksumError`, not
with `CompressorTypeMismatchError`. -/
theorem ReadResponseBody_mismatch_after_sum :
    (ReadResponseBody samplePackages
      { sampleCodec with
        r := [5, 6, 7]
        response := { CompressType := 1, Error := "", ID := 1, ResponseLen := 3,
                      Checksum := 1 } } (some [])).ret =
      Ret.err Error.UnexpectedChecksumError ∧
    ¬ ((ReadResponseBody samplePackages
      { sampleCodec with
        r := [5, 6, 7]
        response := { CompressType := 1, Error := "", ID := 1, ResponseLen := 3,
                      Checksum := 1 } } (some [])).ret =
      Ret.err Error.CompressorTypeMismatchError) := by
  refine ⟨by decide, by decide⟩

/-- Claim C9. When `ReadResponseBody` fails with `UnexpectedChecksumError` or
`CompressorTypeMismatchError`, the stream held the whole declared body and the
call took exactly those `ResponseLen` bytes off it and changed nothing else in
the codec.  Every `ReadResponseBody` on the same codec that succeeds leaves the
same codec behind, so the next `ReadResponseHeader` does after the failure
exactly what it does after a successful read or discard of the body. -/
theorem ReadResponseBody_failure_keeps_alignment {α : Type} (env : Packages)
    (c : clientCodec α) (param : Option α)
    (h : (ReadResponseBody env c param).ret = Ret.err Error.UnexpectedChecksumError ∨
      (ReadResponseBody env c param).ret = Ret.err Error.CompressorTypeMismatchError) :
    c.response.ResponseLen ≤ c.r.length ∧
    (ReadResponseBody env c param).codec.r = c.r.drop c.response.ResponseLen ∧
    (ReadResponseBody env c param).codec = { c with r := c.r.drop c.response.ResponseLen } ∧
    (ReadResponseBody env c none).ret = Ret.nil ∧
    (∀ q, (ReadResponseBody env c q).ret = Ret.nil →
      (ReadResponseBody env c q).codec = (ReadResponseBody env c param).codec) ∧
    (∀ q r, (ReadResponseBody env c q).ret = Ret.nil →
      ReadResponseHeader env (ReadResponseBody env c param).codec r =
        ReadResponseHeader env (ReadResponseBody env c q).codec r) := by
  have hl := (ReadResponseBody_sentinel_len env c param h).2
  have hc := ReadResponseBody_codec env c param hl
  refine ⟨hl, ?_, hc, (ReadResponseBody_nil_discards env c hl).1, ?_, ?_⟩
  · rw [hc]
  · intro q _
    rw [hc, ReadResponseBody_codec env c q hl]
  · intro q r _
    rw [hc, ReadResponseBody_codec env c q hl]

/-- An instance of C9: a body of three bytes under a wrong checksum, followed by
two bytes of the next frame. -/
theorem ReadResponseBody_failure_keeps_alignment_witness :
    (ReadResponseBody samplePackages
      { sampleCodec with
        r := [5, 6, 7, 0, 0]
        response := { CompressType := 0, Error := "", ID := 1, ResponseLen := 3,
                      Checksum := 1 } } (some [])).codec.r = [0, 0] :=
  (ReadResponseBody_failure_keeps_alignment samplePackages
      { sampleCodec with
        r := [5, 6, 7, 0, 0]
        response := { CompressType := 0, Error := "", ID := 1, ResponseLen := 3,
                      Checksum := 1 } } (some []) (Or.inl (by decide))).2.1

/-- With a configured code that is not registered and a response that declares
the same code, `ReadResponseBody` gets past both checks whenever the checksum
is waived or right, and then panics on the missing registry entry. -/
theorem ReadResponseBody_unregistered {α : Type} (env : Packages) (c : clientCodec α)
    (p : α) (hlen : c.response.ResponseLen ≤ c.r.length)
    (hsum : c.response.Checksum = 0 ∨
      c.response.Checksum = ChecksumIEEE (c.r.take c.response.ResponseLen))
    (hct : c.response.CompressType = c.compressor)
    (hreg : env.Compressors c.compressor = none) :
    (ReadResponseBody env c (some p)).ret = Ret.panic := by
  have hs : ¬ (c.response.Checksum ≠ 0 ∧
      ChecksumIEEE (c.r.take c.response.ResponseLen) ≠ c.response.Checksum) := by
    rintro ⟨h1, h2⟩
    rcases hsum with h | h
    · exact h1 h
    · exact h2 h.symm
  simp only [ReadResponseBody, read_ok _ _ hlen, hs, if_false,
    ResponseHeader.GetCompressType, hct, ne_eq, not_true_eq_false, hreg]

/-- Claim C10, the code at the failing input. A codec configured with code 9,
which is not registered, reads the body of a response that declares the same
code 9 and waives the checksum: the lookup at line 136 yields no compressor,
and the call of `Unzip` on it panics; the call does not return
`NotFoundCompressorError`. -/
theorem ReadResponseBody_unregistered_panics :
    samplePackages.Compressors 9 = none ∧
    (ReadResponseBody samplePackages
      { sampleCodec with
        compressor := 9
        r := [5, 6, 7]
        response := { CompressType := 9, Error := "", ID := 1, ResponseLen := 3,
                      Checksum := 0 } } (some [])).ret = Ret.panic ∧
    (ReadResponseBody samplePackages
      { sampleCodec with
        compressor := 9
        r := [5, 6, 7]
        response := { CompressType := 9, Error := "", ID := 1, ResponseLen := 3,
                      Checksum := 0 } } (some [])).ret ≠
      Ret.err Error.NotFoundCompressorError := by
  refine ⟨rfl, by decide, by decide⟩

/-! ## The codec: writing a request -/

/-- Claim C4. For a codec whose configured compressor code is not registered,
`WriteRequest` returns `NotFoundCompressorError` for every request and
parameter; the writer is left exactly as it was, in its buffer and in what the
connection has got; and nothing outside is called, the serializer in particular
is not. -/
theorem WriteRequest_unregistered {α : Type} (env : Packages) (c : clientCodec α)
    (r : Request) (param : α) (h : env.Compressors c.compressor = none) :
    (WriteRequest env c r param).ret = Ret.err Error.NotFoundCompressorError ∧
    (WriteRequest env c r param).codec.w = c.w ∧
    (WriteRequest env c r param).codec.w.buf = c.w.buf ∧
    (WriteRequest env c r param).codec.w.wr.sent = c.w.wr.sent ∧
    (WriteRequest env c r param).calls = [] ∧
    Call.Marshal ∉ (WriteRequest env c r param).calls := by
  simp [WriteRequest, h]

/-- An instance of C4: the sample codec configured with code 9, which the
sample registry does not have. -/
theorem WriteRequest_unregistered_witness :
    samplePackages.Compressors 9 = none ∧
    (WriteRequest samplePackages { sampleCodec with compressor := 9 }
      { ServiceMethod := "Svc.Echo", Seq := 1 } [5, 6, 7]).ret =
      Ret.err Error.NotFoundCompressorError :=
  ⟨rfl,
   (WriteRequest_unregistered samplePackages { sampleCodec with compressor := 9 }
      { ServiceMethod := "Svc.Echo", Seq := 1 } [5, 6, 7] rfl).1⟩

/-- What `WriteRequest` puts on the wire when no stream operation failed: the
sticky error of the writer is unset at the end exactly when the header frame,
the body and the flush all went through. -/
theorem WriteRequest_sent {α : Type} (env : Packages) (c : clientCodec α) (r : Request)
    (param : α) (z : Compressor) (plain body : Bytes)
    (hreg : env.Compressors c.compressor = some z)
    (hm : c.serializer.Marshal param = .ok plain) (hz : z.Zip plain = .ok body)
    (hio : (WriteRequest env c r param).codec.w.err = none) :
    (WriteRequest env c r param).ret = Ret.nil ∧
    (WriteRequest env c r param).codec.w.wr.sent =
      c.w.wr.sent ++ c.w.buf ++
        frame (env.MarshalRequest (requestHeader c.compressor r body)) ++ body ∧
    (WriteRequest env c r param).codec.w.buf = [] := by
  have e1 := sendFrame_err c.w (env.MarshalRequest (requestHeader c.compressor r body))
  have o1 := sendFrame_out c.w (env.MarshalRequest (requestHeader c.compressor r body))
  simp only [WriteRequest, hreg, hm, hz] at hio ⊢
  rcases hs : sendFrame c.w (env.MarshalRequest (requestHeader c.compressor r body))
    with ⟨e, w1⟩
  rw [hs] at hio e1 o1
  cases e with
  | some e =>
    simp only at hio e1
    rw [← e1] at hio
    exact absurd hio (by simp)
  | none =>
    simp only at hio e1 o1 ⊢
    have e2 := write_err w1 body
    have o2 := write_out w1 body
    rcases hw : write w1 body with ⟨e, w2⟩
    rw [hw] at hio e2 o2
    cases e with
    | some e =>
      simp only at hio e2
      rw [← e2] at hio
      exact absurd hio (by simp)
    | none =>
      simp only at hio e2 o2 ⊢
      refine ⟨trivial, ?_, Writer.Flush_buf w2 hio⟩
      have hf := Writer.Flush_out w2
      rw [Writer.Flush_buf w2 hio, List.append_nil] at hf
      rw [hf, o2 e2.symm, o1 e1.symm]

/-- With a writer that has no error and a connection that has room for the
buffer, the header frame and the body, no stream operation of `WriteRequest`
fails. -/
theorem WriteRequest_room {α : Type} (env : Packages) (c : clientCodec α) (r : Request)
    (param : α) (z : Compressor) (plain body : Bytes)
    (hreg : env.Compressors c.compressor = some z)
    (hm : c.serializer.Marshal param = .ok plain) (hz : z.Zip plain = .ok body)
    (he : c.w.err = none) (m n : Nat)
    (hm1 : (env.MarshalRequest (requestHeader c.compressor r body)).length = m)
    (hn : body.length = n) (hr : c.w.buf.length + (4 + m) + n ≤ c.w.wr.room) :
    (WriteRequest env c r param).codec.w.err = none := by
  subst hm1 hn
  obtain ⟨k, hk⟩ := Nat.exists_eq_add_of_le hr
  have h1 := sendFrame_room (body.length + k) c.w
    (env.MarshalRequest (requestHeader c.compressor r body)) he (by omega)
  have e1 := sendFrame_err c.w (env.MarshalRequest (requestHeader c.compressor r body))
  simp only [WriteRequest, hreg, hm, hz]
  rcases hs : sendFrame c.w (env.MarshalRequest (requestHeader c.compressor r body))
    with ⟨e, w1⟩
  rw [hs] at h1 e1
  simp only at h1 e1
  cases e with
  | some e => rw [h1.1] at e1; exact absurd e1 (by simp)
  | none =>
    simp only
    have h2 := write_room k w1 body h1.1 (by omega)
    have e2 := write_err w1 body
    rcases hw : write w1 body with ⟨e, w2⟩
    rw [hw] at h2 e2
    simp only at h2 e2
    cases e with
    | some e => rw [h2.1] at e2; exact absurd e2 (by simp)
    | none =>
      simp only
      exact (Writer.Flush_room w2 h2.1 (by omega)).1

/-- Claim C1, as amended. When the configured compressor is registered and
`Marshal`, `Zip` and all stream operations succeed, `WriteRequest` returns
success and adds to the stream, behind what was there and still buffered,
exactly the header frame followed by the compressed body
`c = Zip(Marshal(param))`, with nothing in between or after and nothing left in
the buffer.  The framed header has `ID` the sequence number, `Method` the
method name, `CompressType` the codec's configured code, `Checksum` the CRC-32
of `c`, and `RequestLen` the length of `c` modulo 2^32; so `RequestLen` is the
length of `c`, and the body on the wire is `RequestLen` bytes long, when `c` is
shorter than 2^32 bytes. -/
theorem WriteRequest_wire {α : Type} (env : Packages) (c : clientCodec α) (r : Request)
    (param : α) (z : Compressor) (plain body : Bytes)
    (hreg : env.Compressors c.compressor = some z)
    (hm : c.serializer.Marshal param = .ok plain) (hz : z.Zip plain = .ok body)
    (hio : (WriteRequest env c r param).codec.w.err = none) :
    (WriteRequest env c r param).ret = Ret.nil ∧
    (WriteRequest env c r param).codec.w.wr.sent =
      c.w.wr.sent ++ c.w.buf ++
        frame (env.MarshalRequest (requestHeader c.compressor r body)) ++ body ∧
    (WriteRequest env c r param).codec.w.buf = [] ∧
    (requestHeader c.compressor r body).ID = r.Seq ∧
    (requestHeader c.compressor r body).Method = r.ServiceMethod ∧
    (requestHeader c.compressor r body).CompressType = c.compressor ∧
    (requestHeader c.compressor r body).Checksum = ChecksumIEEE body ∧
    (requestHeader c.compressor r body).RequestLen = body.length % 2 ^ 32 ∧
    (body.length < 2 ^ 32 → (requestHeader c.compressor r body).RequestLen = body.length) := by
  obtain ⟨h1, h2, h3⟩ := WriteRequest_sent env c r param z plain body hreg hm hz hio
  exact ⟨h1, h2, h3, rfl, rfl, rfl, rfl, rfl, fun h => Nat.mod_eq_of_lt h⟩

/-- An instance of C1: the sample codec writes the request `Svc.Echo` with
sequence number 1 and the body `[5, 6, 7]`. -/
theorem WriteRequest_wire_witness :
    (WriteRequest samplePackages sampleCodec { ServiceMethod := "Svc.Echo", Seq := 1 }
      [5, 6, 7]).codec.w.wr.sent =
      [0, 0, 0, 29, 0, 0, 0, 0, 0, 0, 0, 1, 0, 0, 0, 8, 83, 118, 99, 46, 69, 99, 104, 111,
        0, 0, 0, 3, 0, 49, 180, 41, 220, 5, 6, 7] :=
  (WriteRequest_wire samplePackages sampleCodec { ServiceMethod := "Svc.Echo", Seq := 1 }
    [5, 6, 7] rawCompressor [5, 6, 7] [5, 6, 7] rfl rfl rfl (by decide)).2.1

theorem fourGiB_length : fourGiB.length = 4294967296 := by
  unfold fourGiB
  exact List.length_replicate _ _

theorem requestHeader_RequestLen (k : Nat) (r : Request) (body : Bytes) :
    (requestHeader k r body).RequestLen = body.length % 2 ^ 32 := rfl

/-- Claim C1 as stated fails. A body of 2^32 bytes: the sample codec on a
connection with room for 2^33 bytes writes the request without any failure,
the header frame and then the 2^32 bytes of the body, and the header it frames
has `RequestLen = 0`, which is not the length of the body. -/
theorem WriteRequest_RequestLen_wraps :
    (WriteRequest samplePackages
      { sampleCodec with w := { err := none, buf := [],
                                wr := { sent := [], room := 8589934592, fault := 7 } } }
      { ServiceMethod := "Svc.Echo", Seq := 1 } fourGiB).ret = Ret.nil ∧
    (WriteRequest samplePackages
      { sampleCodec with w := { err := none, buf := [],
                                wr := { sent := [], room := 8589934592, fault := 7 } } }
      { ServiceMethod := "Svc.Echo", Seq := 1 } fourGiB).codec.w.err = none ∧
    (WriteRequest samplePackages
      { sampleCodec with w := { err := none, buf := [],
                                wr := { sent := [], room := 8589934592, fault := 7 } } }
      { ServiceMethod := "Svc.Echo", Seq := 1 } fourGiB).codec.w.wr.sent =
      frame (samplePackages.MarshalRequest
        (requestHeader 0 { ServiceMethod := "Svc.Echo", Seq := 1 } fourGiB)) ++ fourGiB ∧
    (requestHeader 0 { ServiceMethod := "Svc.Echo", Seq := 1 } fourGiB).RequestLen = 0 ∧
    fourGiB.length = 4294967296 ∧
    ¬ ((requestHeader 0 { ServiceMethod := "Svc.Echo", Seq := 1 } fourGiB).RequestLen =
      fourGiB.length) := by
  have hlen : (requestHeader 0 { ServiceMethod := "Svc.Echo", Seq := 1 } fourGiB).RequestLen
      = 0 := by
    rw [requestHeader_RequestLen, fourGiB_length]
    decide
  have hio := WriteRequest_room samplePackages
    { sampleCodec with w := { err := none, buf := [],
                              wr := { sent := [], room := 8589934592, fault := 7 } } }
    { ServiceMethod := "Svc.Echo", Seq := 1 } fourGiB rawCompressor fourGiB fourGiB
    rfl rfl rfl rfl 29 4294967296 rfl fourGiB_length (by decide)
  have hs := WriteRequest_sent samplePackages
    { sampleCodec with w := { err := none, buf := [],
                              wr := { sent := [], room := 8589934592, fault := 7 } } }
    { ServiceMethod := "Svc.Echo", Seq := 1 } fourGiB rawCompressor fourGiB fourGiB
    rfl rfl rfl hio
  have hne : ¬ ((0 : Nat) = 4294967296) := by decide
  refine ⟨hs.1, hio, hs.2.1.trans ?_, hlen, fourGiB_length, ?_⟩
  · exact congrArg (fun l => l ++ fourGiB)
      (List.nil_append (frame (samplePackages.MarshalRequest
        (requestHeader 0 { ServiceMethod := "Svc.Echo", Seq := 1 } fourGiB))))
  · rw [hlen, fourGiB_length]
    exact hne

/-- Which results of the stream operations `WriteRequest` returns: an error of
the header frame or of the body is returned; once both are written the call
returns success, whatever the flush at line 84 returns. -/
theorem WriteRequest_stream_errors {α : Type} (env : Packages) (c : clientCodec α)
    (r : Request) (param : α) (z : Compressor) (plain body : Bytes)
    (hreg : env.Compressors c.compressor = some z)
    (hm : c.serializer.Marshal param = .ok plain) (hz : z.Zip plain = .ok body) :
    (∀ e, (sendFrame c.w (env.MarshalRequest (requestHeader c.compressor r body))).1 = some e →
      (WriteRequest env c r param).ret = Ret.err e) ∧
    (∀ e, (sendFrame c.w (env.MarshalRequest (requestHeader c.compressor r body))).1 = none →
      (write (sendFrame c.w (env.MarshalRequest (requestHeader c.compressor r body))).2
        body).1 = some e →
      (WriteRequest env c r param).ret = Ret.err e) ∧
    ((sendFrame c.w (env.MarshalRequest (requestHeader c.compressor r body))).1 = none →
      (write (sendFrame c.w (env.MarshalRequest (requestHeader c.compressor r body))).2
        body).1 = none →
      (WriteRequest env c r param).ret = Ret.nil) := by
  simp only [WriteRequest, hreg, hm, hz]
  rcases sendFrame c.w (env.MarshalRequest (requestHeader c.compressor r body)) with ⟨e1, w1⟩
  cases e1 with
  | some e1 => simp
  | none =>
    simp only
    rcases write w1 body with ⟨e2, w2⟩
    cases e2 with
    | some e2 => simp
    | none => simp

/-- Claim C8, the code at the failing input. The sample codec on a connection
that accepts no byte writes the request `Svc.Echo`: the header frame and the
body fit into the buffer, so `sendFrame` and `write` succeed; the flush at line
84 fails with the connection's error, nothing has reached the connection, and
`WriteRequest` returns success. -/
theorem WriteRequest_drops_flush_error :
    (WriteRequest samplePackages
      { sampleCodec with w := { err := none, buf := [],
                                wr := { sent := [], room := 0, fault := 7 } } }
      { ServiceMethod := "Svc.Echo", Seq := 1 } [5, 6, 7]).ret = Ret.nil ∧
    (WriteRequest samplePackages
      { sampleCodec with w := { err := none, buf := [],
                                wr := { sent := [], room := 0, fault := 7 } } }
      { ServiceMethod := "Svc.Echo", Seq := 1 } [5, 6, 7]).codec.w.err =
      some (Error.other 7) ∧
    (WriteRequest samplePackages
      { sampleCodec with w := { err := none, buf := [],
                                wr := { sent := [], room := 0, fault := 7 } } }
      { ServiceMethod := "Svc.Echo", Seq := 1 } [5, 6, 7]).codec.w.wr.sent = [] ∧
    (Writer.Flush
      (write
        (sendFrame { err := none, buf := [], wr := { sent := [], room := 0, fault := 7 } }
          (samplePackages.MarshalRequest
            (requestHeader 0 { ServiceMethod := "Svc.Echo", Seq := 1 } [5, 6, 7]))).2
        [5, 6, 7]).2).1 = some (Error.other 7) := by
  refine ⟨by decide, by decide, by decide, by decide⟩

/-! ## The pending table -/

/-- The table entry a request leaves behind. -/
theorem WriteRequest_pending {α : Type} (env : Packages) (c : clientCodec α) (r : Request)
    (param : α) :
    (WriteRequest env c r param).codec.pending = c.pending.store r.Seq r.ServiceMethod ∧
    (WriteRequest env c r param).codec.r = c.r := by
  unfold WriteRequest
  simp only
  split
  · exact ⟨rfl, rfl⟩
  · split
    · exact ⟨rfl, rfl⟩
    · split
      · exact ⟨rfl, rfl⟩
      · split
        · exact ⟨rfl, rfl⟩
        · split
          · exact ⟨rfl, rfl⟩
          · split <;> exact ⟨rfl, rfl⟩

theorem writeRequests_pending {α : Type} (env : Packages) (reqs : List (Request × α)) :
    ∀ c : clientCodec α,
    (writeRequests env c reqs).pending =
      reqs.foldl (fun m q => Pending.store m q.1.Seq q.1.ServiceMethod) c.pending ∧
    (writeRequests env c reqs).r = c.r := by
  induction reqs with
  | nil => intro c; exact ⟨rfl, rfl⟩
  | cons q reqs ih =>
    intro c
    obtain ⟨r, param⟩ := q
    have h := WriteRequest_pending env c r param
    have h2 := ih (WriteRequest env c r param).codec
    simp only [writeRequests, List.foldl_cons]
    rw [h2.1, h2.2, h.1, h.2]
    exact ⟨rfl, rfl⟩

/-- Storing under a key that has no entry adds one entry and keeps the rest. -/
theorem Pending.store_fresh (m : Pending) (k : Nat) (v : String)
    (h : k ∉ m.map Prod.fst) : Pending.store m k v = (k, v) :: m := by
  unfold Pending.store
  congr 1
  rw [List.filter_eq_self]
  intro e he
  have : e.1 ≠ k := by
    rintro rfl
    exact h (List.mem_map_of_mem Prod.fst he)
  simpa using this

/-- After requests with pairwise distinct sequence numbers, none of which has
an entry yet, the table holds the old entries and one entry per request. -/
theorem Pending.foldl_store_perm (reqs : List (Request × α)) :
    ∀ m : Pending,
    (m.map Prod.fst ++ reqs.map (fun q => q.1.Seq)).Nodup →
    (reqs.foldl (fun m q => Pending.store m q.1.Seq q.1.ServiceMethod) m).Perm
      (reqs.map (fun q => (q.1.Seq, q.1.ServiceMethod)) ++ m) := by
  induction reqs with
  | nil => intro m _; exact List.Perm.refl m
  | cons q reqs ih =>
    intro m hnd
    have hk : q.1.Seq ∉ m.map Prod.fst := by
      intro hmem
      have hd := (List.nodup_append.mp hnd).2.2
      exact hd hmem (by simp)
    have hnd1 : (((q.1.Seq, q.1.ServiceMethod) :: m).map Prod.fst ++
        reqs.map (fun q => q.1.Seq)).Nodup := by
      have hp : (((q.1.Seq, q.1.ServiceMethod) :: m).map Prod.fst ++
          reqs.map (fun q => q.1.Seq)).Perm
          (m.map Prod.fst ++ (q :: reqs).map (fun q => q.1.Seq)) := by
        simp only [List.map_cons, List.cons_append]
        exact List.perm_middle.symm
      exact hp.nodup_iff.mpr hnd
    simp only [List.foldl_cons, List.map_cons, List.cons_append]
    rw [Pending.store_fresh m _ _ hk]
    exact (ih _ hnd1).trans List.perm_middle

/-- In a table with at most one entry per key, loading a key yields the value of
its entry. -/
theorem Pending.load_of_mem : ∀ (m : Pending) (k : Nat) (v : String),
    (m.map Prod.fst).Nodup → (k, v) ∈ m → Pending.load m k = v := by
  intro m
  induction m with
  | nil => intro k v _ h; simp at h
  | cons e m ih =>
    intro k v hnd hmem
    have hnd' : e.1 ∉ m.map Prod.fst ∧ (m.map Prod.fst).Nodup := by
      simpa using hnd
    by_cases hek : e.1 = k
    · have he : e = (k, v) := by
        rcases List.mem_cons.mp hmem with h | h
        · exact h.symm
        · exact absurd (hek ▸ List.mem_map_of_mem Prod.fst h) hnd'.1
      simp [Pending.load, he]
    · have hm : (k, v) ∈ m := by
        rcases List.mem_cons.mp hmem with h | h
        · exact absurd (by rw [← h]) hek
        · exact h
      have := ih k v hnd'.2 hm
      simpa [Pending.load, List.find?_cons, hek] using this

theorem getUint32_putUint32 (n : Nat) (h : n < 2 ^ 32) :
    getUint32 (n / 16777216 % 256) (n / 65536 % 256) (n / 256 % 256) (n % 256) = n := by
  unfold getUint32
  omega

/-- A frame on the stream is received as its payload, and the stream stands
behind the frame. -/
theorem recvFrame_frame (x tail : Bytes) (h : x.length < 2 ^ 32) :
    recvFrame (frame x ++ tail) = (.ok x, tail) := by
  simp [recvFrame, frame, putUint32, read, getUint32_putUint32 _ h]

/-- One `ReadResponseHeader` on a stream that starts with the frame of a header
the decoder accepts. -/
theorem ReadResponseHeader_frame {α : Type} (env : Packages) (c : clientCodec α)
    (r : Response) (x tail : Bytes) (h : ResponseHeader)
    (hr : c.r = frame x ++ tail) (hx : x.length < 2 ^ 32)
    (hd : env.UnmarshalResponse x = .ok h) :
    ReadResponseHeader env c r =
      ⟨Ret.nil, { c with r := tail, response := h,
                         pending := c.pending.delete (env.C_Response_ID h) },
        { ServiceMethod := c.pending.load (env.C_Response_ID h),
          Seq := env.C_Response_ID h, Error := h.Error }⟩ := by
  simp [ReadResponseHeader, hr, recvFrame_frame x tail hx, hd]

/-- Deleting a key from a table with at most one entry per key removes the key
from the keys and keeps the other keys, and leaves at most one entry per key. -/
theorem Pending.delete_keys (m : Pending) (k : Nat) (hnd : (m.map Prod.fst).Nodup)
    (hk : k ∈ m.map Prod.fst) :
    (m.map Prod.fst).Perm (k :: (Pending.delete m k).map Prod.fst) ∧
    ((Pending.delete m k).map Prod.fst).Nodup ∧
    (∀ e ∈ Pending.delete m k, e ∈ m) := by
  have hf : (Pending.delete m k).map Prod.fst = (m.map Prod.fst).erase k := by
    rw [List.Nodup.erase_eq_filter hnd, List.filter_map]
    unfold Pending.delete
    congr 1
    apply List.filter_congr
    intro e _
    by_cases h : e.1 = k <;> simp [h]
  refine ⟨?_, ?_, ?_⟩
  · rw [hf]
    exact List.perm_cons_erase hk
  · rw [hf]
    exact hnd.erase k
  · intro e he
    exact (List.mem_filter.mp he).1

/-- Reading the headers of a stream of frames against a table whose keys are,
in some order, the sequence numbers the headers carry: each header resolves to
the method name stored under its number, and the table ends up empty. -/
theorem readResponseHeaders_resolve {α : Type} (env : Packages)
    (hC : ∀ h, env.C_Response_ID h = h.ID)
    (enc : ResponseHeader → Bytes) (rest : Bytes) :
    ∀ (hdrs : List ResponseHeader) (c : clientCodec α),
    (c.pending.map Prod.fst).Nodup →
    (hdrs.map (fun h => h.ID)).Perm (c.pending.map Prod.fst) →
    (∀ h ∈ hdrs, env.UnmarshalResponse (enc h) = .ok h ∧ (enc h).length < 2 ^ 32) →
    c.r = responseFrames enc hdrs ++ rest →
    List.Forall₂
      (fun h o => o.1 = Ret.nil ∧ o.2.Seq = h.ID ∧ o.2.Error = h.Error ∧
        (h.ID, o.2.ServiceMethod) ∈ c.pending)
      hdrs (readResponseHeaders env c hdrs.length).2 ∧
    (readResponseHeaders env c hdrs.length).1.pending = [] ∧
    (readResponseHeaders env c hdrs.length).1.r = rest := by
  intro hdrs
  induction hdrs with
  | nil =>
    intro c _ hperm _ hr
    refine ⟨List.Forall₂.nil, ?_, by simpa [responseFrames] using hr⟩
    have : c.pending.map Prod.fst = [] := List.Perm.nil_eq hperm |>.symm
    simpa using this
  | cons h hs ih =>
    intro c hnd hperm hdec hr
    have hh := hdec h (List.mem_cons_self h hs)
    have hr1 : c.r = frame (enc h) ++ (responseFrames enc hs ++ rest) := by
      rw [hr]
      simp [responseFrames]
    have hstep := ReadResponseHeader_frame env c
      { ServiceMethod := "", Seq := 0, Error := "" } (enc h) _ h hr1 hh.2 hh.1
    have hk : h.ID ∈ c.pending.map Prod.fst :=
      hperm.subset (by simp)
    obtain ⟨e, he, hek⟩ := List.mem_map.mp hk
    have hload : Pending.load c.pending h.ID = e.2 :=
      Pending.load_of_mem c.pending h.ID e.2 hnd (by rw [← hek]; exact he)
    obtain ⟨hd1, hd2, hd3⟩ := Pending.delete_keys c.pending h.ID hnd hk
    have hperm1 : (hs.map (fun h => h.ID)).Perm
        ((Pending.delete c.pending h.ID).map Prod.fst) :=
      List.Perm.cons_inv (hperm.trans hd1)
    have hrec := ih
      { c with r := responseFrames enc hs ++ rest, response := h,
               pending := Pending.delete c.pending h.ID }
      hd2 hperm1 (fun x hx => hdec x (List.mem_cons_of_mem h hx)) rfl
    rw [hC h] at hstep
    simp only [List.length_cons, readResponseHeaders, hstep]
    refine ⟨List.Forall₂.cons ⟨rfl, rfl, rfl, ?_⟩ ?_, hrec.2.1, hrec.2.2⟩
    · show (h.ID, Pending.load c.pending h.ID) ∈ c.pending
      rw [hload, ← hek]
      exact he
    · exact hrec.1.imp (fun a b hab => ⟨hab.1, hab.2.1, hab.2.2.1, hd3 _ hab.2.2.2⟩)

/-- The pending table with line 101 repaired, that is, when `C.Response.ID` is
the `ID` of the header just decoded.  Start from a client codec with an empty
pending table.  After any list of `WriteRequest` calls with pairwise distinct
sequence numbers, and for response headers that carry these numbers in any
order and arrive framed one after the other, the same number of
`ReadResponseHeader` calls all succeed, each sets `Seq` and `Error` to the `ID`
and `Error` of the header it decoded and `ServiceMethod` to the method name
that was passed to `WriteRequest` with that sequence number, and after the last
of them the pending table is empty. -/
theorem pending_resolves_in_any_order {α : Type} (env : Packages) (c : clientCodec α)
    (reqs : List (Request × α)) (hdrs : List ResponseHeader)
    (enc : ResponseHeader → Bytes) (rest : Bytes)
    (hC : ∀ h, env.C_Response_ID h = h.ID)
    (hempty : c.pending = [])
    (hnd : (reqs.map (fun q => q.1.Seq)).Nodup)
    (hperm : (hdrs.map (fun h => h.ID)).Perm (reqs.map (fun q => q.1.Seq)))
    (hdec : ∀ h ∈ hdrs, env.UnmarshalResponse (enc h) = .ok h ∧ (enc h).length < 2 ^ 32)
    (hr : c.r = responseFrames enc hdrs ++ rest) :
    List.Forall₂
      (fun h o => o.1 = Ret.nil ∧ o.2.Seq = h.ID ∧ o.2.Error = h.Error ∧
        ∃ q ∈ reqs, q.1.Seq = h.ID ∧ o.2.ServiceMethod = q.1.ServiceMethod)
      hdrs (readResponseHeaders env (writeRequests env c reqs) hdrs.length).2 ∧
    (readResponseHeaders env (writeRequests env c reqs) hdrs.length).1.pending = [] := by
  obtain ⟨hp, hrd⟩ := writeRequests_pending env reqs c
  have hstore := Pending.foldl_store_perm reqs c.pending (by simpa [hempty] using hnd)
  rw [← hp] at hstore
  simp only [hempty, List.append_nil] at hstore
  have hkeys : ((writeRequests env c reqs).pending.map Prod.fst).Perm
      (reqs.map (fun q => q.1.Seq)) := by
    have := hstore.map Prod.fst
    simpa [Function.comp_def] using this
  have hres := readResponseHeaders_resolve env hC enc rest hdrs (writeRequests env c reqs)
    (hkeys.nodup_iff.mpr hnd) (hperm.trans hkeys.symm) hdec (by rw [hrd, hr])
  refine ⟨hres.1.imp ?_, hres.2.1⟩
  intro h o ho
  refine ⟨ho.1, ho.2.1, ho.2.2.1, ?_⟩
  obtain ⟨q, hq, hqe⟩ := List.mem_map.mp (hstore.subset ho.2.2.2)
  simp only [Prod.mk.injEq] at hqe
  exact ⟨q, hq, hqe.1, hqe.2.symm⟩

/-- Three requests with the sequence numbers 1, 2, 3, and their responses in
the order 3, 1, 2, read with line 101 repaired. -/
theorem pending_resolves_in_any_order_witness :
    (readResponseHeaders repairedPackages
      (writeRequests repairedPackages
        { sampleCodec with
          r := responseFrames sampleMarshalResponse
            [{ CompressType := 0, Error := "", ID := 3, ResponseLen := 0, Checksum := 0 },
             { CompressType := 0, Error := "boom", ID := 1, ResponseLen := 0, Checksum := 0 },
             { CompressType := 0, Error := "", ID := 2, ResponseLen := 0, Checksum := 0 }]
            ++ [] }
        [({ ServiceMethod := "Svc.Echo", Seq := 1 }, [5]),
         ({ ServiceMethod := "Svc.Add", Seq := 2 }, [6]),
         ({ ServiceMethod := "Svc.Mul", Seq := 3 }, [7])])
      3).1.pending = [] :=
  (pending_resolves_in_any_order repairedPackages
    { sampleCodec with
      r := responseFrames sampleMarshalResponse
        [{ CompressType := 0, Error := "", ID := 3, ResponseLen := 0, Checksum := 0 },
         { CompressType := 0, Error := "boom", ID := 1, ResponseLen := 0, Checksum := 0 },
         { CompressType := 0, Error := "", ID := 2, ResponseLen := 0, Checksum := 0 }]
        ++ [] }
    [({ ServiceMethod := "Svc.Echo", Seq := 1 }, [5]),
     ({ ServiceMethod := "Svc.Add", Seq := 2 }, [6]),
     ({ ServiceMethod := "Svc.Mul", Seq := 3 }, [7])]
    [{ CompressType := 0, Error := "", ID := 3, ResponseLen := 0, Checksum := 0 },
     { CompressType := 0, Error := "boom", ID := 1, ResponseLen := 0, Checksum := 0 },
     { CompressType := 0, Error := "", ID := 2, ResponseLen := 0, Checksum := 0 }]
    sampleMarshalResponse [] (fun _ => rfl) rfl (by decide) (by decide)
    (by
      intro h hh
      simp only [List.mem_cons, List.mem_singleton, List.not_mem_nil, or_false] at hh
      rcases hh with rfl | rfl | rfl
      · exact ⟨rfl, by decide⟩
      · exact ⟨rfl, by decide⟩
      · exact ⟨rfl, by decide⟩)
    rfl).2

/-- Claim C3, the code at the failing input. One request, `Svc.Echo` with sequence
number 1, is written by a codec with an empty pending table, and the response
header with `ID = 1` arrives.  `ReadResponseHeader` decodes the header into
`c.response`, but line 101 takes `r.Seq` from `C.Response.ID`, here 0, not from
the header just decoded: `Seq` is 0 and not 1, `ServiceMethod` is empty and not
`Svc.Echo`, and the entry for sequence number 1 is still in the pending
table. -/
theorem ReadResponseHeader_takes_Seq_elsewhere :
    (readResponseHeaders samplePackages
      (writeRequests samplePackages
        { sampleCodec with
          r := frame (sampleMarshalResponse
            { CompressType := 0, Error := "", ID := 1, ResponseLen := 0, Checksum := 0 }) }
        [({ ServiceMethod := "Svc.Echo", Seq := 1 }, [5])])
      1).2 = [(Ret.nil, { ServiceMethod := "", Seq := 0, Error := "" })] ∧
    (readResponseHeaders samplePackages
      (writeRequests samplePackages
        { sampleCodec with
          r := frame (sampleMarshalResponse
            { CompressType := 0, Error := "", ID := 1, ResponseLen := 0, Checksum := 0 }) }
        [({ ServiceMethod := "Svc.Echo", Seq := 1 }, [5])])
      1).1.response.ID = 1 ∧
    (readResponseHeaders samplePackages
      (writeRequests samplePackages
        { sampleCodec with
          r := frame (sampleMarshalResponse
            { CompressType := 0, Error := "", ID := 1, ResponseLen := 0, Checksum := 0 }) }
        [({ ServiceMethod := "Svc.Echo", Seq := 1 }, [5])])
      1).1.pending = [(1, "Svc.Echo")] := by
  refine ⟨by decide, by decide, by decide⟩

end codec
